import Mathlib

/-!
Verification of the session-aware request broker implemented in
`vms/libs/nx_vms_common/src/api/server_rest_connection.cpp`.

The development shallowly embeds the broker's data model and operations:
the expiry classifier (`isSessionExpiredError`, `getError`), the JSON-RPC
batch reconciler (`extractJsonRpcExpired`, `mergeJsonRpcResults`, the
reduced-batch rewrite performed by `retry`), and the reauthorization
arbitrator / resend tracker of `makeSessionAwareCallbackInternal`,
modelled as a step function over an explicit broker state
(`storedRequests`, `substitutions`, the `ReissuedToken` promise chain).
All transport completions are marshalled onto one interaction thread in
the source, so the stateful code is faithfully represented as a
sequential interpreter over an event trace.
-/

namespace ServerRest

/-- `rest::Handle` (an `int` in the source); `0` models the default
`Handle()` null value. -/
abbrev Handle := Nat

/-- `nx::network::rest::ErrorId`. Only the identifiers the broker
distinguishes are named; every other value is `other`. -/
inductive ErrorId where
  | ok
  | sessionExpired
  | sessionRequired
  | other (code : Nat)
deriving DecidableEq, Repr

/-- `nx::network::rest::Result`: the structured error envelope of a server
response, restricted to the fields the broker reads. -/
structure RestResult where
  errorId : ErrorId
  errorString : String
deriving DecidableEq, Repr

/-- `isSessionExpiredError(nx::network::rest::ErrorId)`,
server_rest_connection.cpp lines 353-357. -/
def isSessionExpiredError (code : ErrorId) : Bool :=
  code == ErrorId.sessionExpired || code == ErrorId.sessionRequired

/-- A raw response body as seen by `getError(body, headers)`: either it
deserializes into a `rest::Result` (`QJson::deserialize` succeeds) or it
does not. -/
inductive Body where
  | valid (r : RestResult)
  | invalid (raw : String)
deriving DecidableEq, Repr

/-- `QJson::deserialize(body, &result)` restricted to `rest::Result`. -/
def deserializeResult : Body → Option RestResult
  | .valid r => some r
  | .invalid _ => none

/-- `getError(const QByteArray& body, const HttpHeaders&)`, lines
2684-2692: a body that does not parse as a `rest::Result` yields
`ErrorId::ok` (success was already checked explicitly). The headers are
not inspected. -/
def getError (body : Body) (_headers : Nat) : ErrorId :=
  match deserializeResult body with
  | some r => r.errorId
  | none => ErrorId.ok

/-- The `requestNewSession` decision of the session-aware wrapper (lines
2762-2786) for a single non-batched response: on success no
reauthorization is requested; on failure the body is classified through
`getError` and `isSessionExpiredError`. -/
def requestNewSessionSingle (success : Bool) (body : Body) (headers : Nat) : Bool :=
  if success then false
  else
    let error := getError body headers
    if error != ErrorId.ok then isSessionExpiredError error else false

/-- A raw single response together with its protocol status line; the
status code is carried only to state that classification ignores it. -/
structure RawResponse where
  statusCode : Nat
  body : Body
  headers : Nat
deriving DecidableEq, Repr

/-- Expiry classification of a raw single response as performed by the
session-aware wrapper: only `success` and the parsed body matter. -/
def classifyRaw (success : Bool) (resp : RawResponse) : Bool :=
  requestNewSessionSingle success resp.body resp.headers

/-! ### JSON-RPC data model -/

/-- A JSON-RPC item id: `std::variant<std::nullptr_t, int, QString>`.
Equality is exact on both the alternative and the value. -/
inductive RpcId where
  | null
  | num (n : Int)
  | str (s : String)
deriving DecidableEq, Repr

/-- `nx::vms::api::JsonRpcRequest`, restricted to the fields the broker
reads; the parameters payload is opaque. -/
structure JsonRpcRequest where
  method : String
  id : RpcId
  params : Nat
deriving DecidableEq, Repr

/-- The `data` field of a JSON-RPC error: an arbitrary JSON value which
may or may not deserialize into a `rest::Result`. -/
inductive ErrorData where
  | restResult (r : RestResult)
  | raw (s : String)
deriving DecidableEq, Repr

/-- `nx::json_rpc::Error`, restricted to the fields the broker touches. -/
structure RpcError where
  code : Int
  message : String
  data : Option ErrorData
deriving DecidableEq, Repr

/-- `nx::vms::api::JsonRpcResponse`: id, opaque success payload, optional
error. -/
structure JsonRpcResponse where
  id : RpcId
  result : Option Nat
  error : Option RpcError
deriving DecidableEq, Repr

/-- `isSessionExpiredError(const nx::json_rpc::Response&)`, lines 359-374:
the response is expired when it carries an error whose `data` field
deserializes into a `rest::Result` with a session-expired error id. -/
def isSessionExpiredResponse (response : JsonRpcResponse) : Bool :=
  match response.error with
  | none => false
  | some err =>
    match err.data with
    | none => false
    | some (ErrorData.restResult r) => isSessionExpiredError r.errorId
    | some (ErrorData.raw _) => false

/-- `JsonRpcResultType = std::variant<JsonRpcResponse,
std::vector<JsonRpcResponse>>`. -/
inductive JsonRpcResult where
  | single (r : JsonRpcResponse)
  | array (rs : List JsonRpcResponse)
deriving DecidableEq, Repr

/-- `rest::ErrorOrData<T>`: either a `rest::Result` error or a value. -/
abbrev ErrorOrData (α : Type) := Except RestResult α

/-- The id-collecting loop of `extractJsonRpcExpired` (lines 1688-1701):
ids of session-expired items; a null id is never collected. The C++ code
stores them in an `unordered_set` used only through `contains`, so a list
with membership semantics is an exact model. -/
def expiredIdsOf : List JsonRpcResponse → List RpcId
  | [] => []
  | response :: rest =>
      let restIds := expiredIdsOf rest
      if isSessionExpiredResponse response then
        match response.id with
        | .num n => RpcId.num n :: restIds
        | .str s => RpcId.str s :: restIds
        | .null => restIds
      else restIds

/-- `extractJsonRpcExpired`, lines 1676-1704: an error result or a
single-response result yields nothing; a response array yields the
expired ids together with a snapshot of the array. -/
def extractJsonRpcExpired (result : ErrorOrData JsonRpcResult) :
    List RpcId × List JsonRpcResponse :=
  match result with
  | .error _ => ([], [])
  | .ok (.single _) => ([], [])
  | .ok (.array responseArray) => (expiredIdsOf responseArray, responseArray)

/-- Modelled from the spec: `nx::json_rpc::Response::makeError` lives in
the json_rpc library, which is not under src/; per the spec it
synthesizes a per-item application-level error response carrying the
failure details, keeping the item id and clearing the result. -/
def makeError (id : RpcId) (code : Int) (message : String)
    (data : Option ErrorData) : JsonRpcResponse :=
  { id := id, result := none, error := some { code := code, message := message, data := data } }

/-- Modelled from the spec: the numeric value of
`nx::json_rpc::Error::applicationError` is declared outside src/; only
its identity matters to the broker. -/
def applicationError : Int := -32500

/-- Lookup in the `idToResponse` map of `mergeJsonRpcResults` (lines
1750-1758): the map is populated by `insert` in array order skipping null
ids, so the first non-null occurrence of an id wins. -/
def lookupFirstById (arr : List JsonRpcResponse) (i : RpcId) : Option JsonRpcResponse :=
  match arr with
  | [] => none
  | r :: rest => if r.id ≠ RpcId.null ∧ r.id = i then some r else lookupFirstById rest i

/-- `mergeJsonRpcResults`, lines 1707-1768. `some` models the C++ `true`
return; every reachable branch returns `true`.
With an error result every session-expired original item is rewritten to
a synthesized application error carrying the failure details; with a
single-response result the error is copied into every expired item; with
a response array every original item whose id has a (non-null) match in
the array is replaced by the first matching response. -/
def mergeJsonRpcResults (originalResponse : List JsonRpcResponse)
    (result : ErrorOrData JsonRpcResult) : Option (List JsonRpcResponse) :=
  match result with
  | .error e =>
      some (originalResponse.map (fun response =>
        if isSessionExpiredResponse response then
          makeError response.id applicationError e.errorString
            (some (ErrorData.restResult e))
        else response))
  | .ok (.single errResponse) =>
      some (originalResponse.map (fun response =>
        if isSessionExpiredResponse response then
          { response with result := none, error := errResponse.error }
        else response))
  | .ok (.array responseArray) =>
      some (originalResponse.map (fun response =>
        match lookupFirstById responseArray response.id with
        | some fresh => fresh
        | none => response))

/-- The reduced-batch computation of `retry` (lines 2830-2840): keep
exactly the original requests whose ids are in the expired set, in their
original order. -/
def reducedJsonRpcRequests (requestData : List JsonRpcRequest)
    (expiredIds : List RpcId) : List JsonRpcRequest :=
  requestData.filter (fun request => expiredIds.contains request.id)

/-- The delivery decision of `fixedCallback` for the JSON-RPC instance
(lines 2872-2896): when the merge succeeds the callback fires with
`success = true` under the original handle and the merged array;
otherwise the raw resend result is forwarded under the original handle. -/
def fixedCallbackJsonRpcDelivery (originalResponse : List JsonRpcResponse)
    (originalHandle : Handle) (success : Bool) (result : ErrorOrData JsonRpcResult) :
    Bool × Handle × Option (List JsonRpcResponse) :=
  match mergeJsonRpcResults originalResponse result with
  | some merged => (true, originalHandle, some merged)
  | none => (success, originalHandle, none)

/-! ### Credentials and requests -/

/-- The discriminator of `nx::network::http::AuthToken`. -/
inductive TokenType where
  | password
  | bearer
deriving DecidableEq, Repr

/-- Modelled from the spec: `nx::network::http::AuthToken` (nx_network
library, not under src/) is an opaque credential value with a type tag;
`isBearerToken` tests the tag. -/
structure AuthToken where
  type : TokenType
  value : Nat
deriving DecidableEq, Repr

/-- `AuthToken::isBearerToken()`. -/
def AuthToken.isBearerToken (t : AuthToken) : Bool :=
  t.type == TokenType.bearer

/-- `nx::network::http::Credentials`, restricted to the fields the broker
touches; the username is opaque. -/
structure Credentials where
  username : Nat
  authToken : AuthToken
deriving DecidableEq, Repr

/-- The message body of a prepared request: opaque bytes, or the
serialized JSON-RPC request array (kept structurally so the reduced-batch
rewrite of `retry` is observable). -/
inductive MessageBody where
  | raw (bytes : Nat)
  | jsonRpc (requests : List JsonRpcRequest)
deriving DecidableEq, Repr

/-- `nx::network::http::ClientPool::Request`, restricted to the fields
the broker reads or rewrites. `url = none` models the default-constructed
request (no address or authentication information was set). -/
structure Request where
  url : Option Nat
  method : Nat
  contentType : Nat
  messageBody : MessageBody
  credentials : Option Credentials
deriving DecidableEq, Repr

/-- Modelled from the spec: `ClientPool::Request::isValid` is declared
outside src/; the default-constructed request returned on preparation
failure is the explicit unpreparable value, and a prepared request always
carries its target address. -/
def Request.isValid (r : Request) : Bool :=
  r.url.isSome

/-- The default-constructed `ClientPool::Request()` returned by
`prepareRequest` when authentication cannot be set up (line 3321). -/
def emptyRequest : Request :=
  { url := none, method := 0, contentType := 0, messageBody := MessageBody.raw 0,
    credentials := none }

/-- `Private::DirectConnect`, lines 424-429. -/
structure DirectConnect where
  address : Nat
  credentials : Credentials
deriving DecidableEq, Repr

/-- `ServerConnection::Private::ReissuedToken`, lines 438-460: a
single-assignment future for the outcome of one reauthorization
interaction (`hasValue` is `m_isSet`, `value` is `m_value`). -/
structure ReissuedToken where
  isSet : Bool
  value : Option AuthToken
deriving DecidableEq, Repr

/-- A freshly constructed `ReissuedToken`. -/
def ReissuedToken.unset : ReissuedToken :=
  { isSet := false, value := none }

/-- One entry of `Private::storedRequests`: the data captured by a stored
`retry` closure — the original handle, the epoch (index of the
`ReissuedToken` object the request's context captured at dispatch), the
original callback arguments, the prepared request, and for JSON-RPC
batches the original request array with the expired-id set (the
`WithDataForType` extension, lines 2700-2706). -/
structure StoredRequest where
  handle : Handle
  epoch : Nat
  success : Bool
  result : Nat
  request : Request
  jsonRpcData : Option (List JsonRpcRequest × List RpcId)
deriving DecidableEq, Repr

/-- The broker-internal state of `ServerConnection::Private` that the
session-aware machinery reads and mutates. `sessions` records every
`ReissuedToken` object ever installed, by epoch; `current` is the epoch
of `d->reissuedToken`; `triggerEpoch` is the epoch of the context that is
currently inside `refreshToken()`; `refreshing` is true exactly while
that interaction is active; `nextHandle` supplies fresh transport
handles. -/
structure BrokerState where
  userId : Nat
  directConnect : Option DirectConnect
  storedRequests : List StoredRequest
  substitutions : List (Handle × Handle)
  sessions : List ReissuedToken
  current : Nat
  triggerEpoch : Nat
  refreshing : Bool
  nextHandle : Handle
deriving DecidableEq, Repr

/-- The externally observable actions of one interpreter step. -/
inductive Output where
  | refreshCall
  | dispatch (handle : Handle) (request : Request)
  | resendDispatch (originalHandle resendHandle : Handle) (request : Request)
  | deliver (success : Bool) (handle : Handle) (result : Nat)
deriving DecidableEq, Repr

/-- The events delivered to the interaction thread: a session-expired
response for an in-flight request, the return of
`SessionTokenHelper::refreshToken`, and the completion of a resent
request (addressed, as on the transport, by the resend handle). -/
inductive BrokerEvent where
  | expire (rec : StoredRequest)
  | refreshDone (token : Option AuthToken)
  | resendDone (resendHandle : Handle) (success : Bool) (result : Nat)
deriving DecidableEq, Repr

/-- The credential rewrite of `retry` (line 2824):
`fixedRequest.credentials->authToken = *token`. -/
def setAuth (request : Request) (token : AuthToken) : Request :=
  { request with credentials := request.credentials.map (fun c => { c with authToken := token }) }

/-- The full request rewrite of `retry` (lines 2822-2841): refresh the
credential and, for a JSON-RPC batch, replace the message body by the
serialized reduced batch. -/
def resendRequestOf (rec : StoredRequest) (token : AuthToken) : Request :=
  let fixedRequest := setAuth rec.request token
  match rec.jsonRpcData with
  | none => fixedRequest
  | some (requestData, expiredIds) =>
      { fixedRequest with
          messageBody := MessageBody.jsonRpc (reducedJsonRpcRequests requestData expiredIds) }

/-- `std::map` insert-or-assign, as in `d->substitutions[originalHandle]
= handle` (line 2908). -/
def assocSet (subs : List (Handle × Handle)) (key val : Handle) :
    List (Handle × Handle) :=
  match subs with
  | [] => [(key, val)]
  | (k, v) :: rest =>
      if k = key then (key, val) :: rest else (k, v) :: assocSet rest key val

/-- The body of one `retry` closure (lines 2801-2910), run with the
resolved token: with no token the original failure is delivered to the
issuer unchanged; with a token the fixed request is re-dispatched and the
original handle is mapped to the resend handle. -/
def runStoredRequest (st : BrokerState) (rec : StoredRequest)
    (token : Option AuthToken) : BrokerState × List Output :=
  match token with
  | none => (st, [Output.deliver rec.success rec.handle rec.result])
  | some t =>
      let resendHandle := st.nextHandle
      ({ st with
          nextHandle := st.nextHandle + 1,
          substitutions := assocSet st.substitutions rec.handle resendHandle },
        [Output.resendDispatch rec.handle resendHandle (resendRequestOf rec t)])

/-- The drain loop of lines 2951-2957: pop the stored retries in FIFO
order and run each with the resolved token. -/
def drainStored (st : BrokerState) (queue : List StoredRequest)
    (token : Option AuthToken) : BrokerState × List Output :=
  match queue with
  | [] => (st, [])
  | rec :: rest =>
      ((drainStored (runStoredRequest st rec token).1 rest token).1,
        (runStoredRequest st rec token).2 ++
          (drainStored (runStoredRequest st rec token).1 rest token).2)

/-- The `ReissuedToken` object a request context captured at dispatch
time. -/
def sessionAt (st : BrokerState) (epoch : Nat) : ReissuedToken :=
  st.sessions.getD epoch ReissuedToken.unset

/-- One step of the interaction-thread logic of
`makeSessionAwareCallbackInternal` (lines 2790-2968).
On an expiry: if no retry is stored and the captured session has no value
yet, the trigger stores itself and invokes `refreshToken` (lines
2913-2929); if the captured session already resolved, the retry runs
immediately with its value (lines 2959-2963); otherwise the interaction
is active and the retry is enqueued (lines 2964-2968).
On the refresh returning: the captured session is set, a fresh
`ReissuedToken` is installed as current, on success the direct-connect
credentials are updated, and the stored retries are drained in FIFO order
(lines 2931-2957).
On a resend completion: the substitution for its original handle is
erased and the result is delivered under the original handle (lines
2845-2896). -/
def brokerStep (st : BrokerState) (ev : BrokerEvent) : BrokerState × List Output :=
  match ev with
  | .expire rec =>
      let session := sessionAt st rec.epoch
      if st.storedRequests.isEmpty && !session.isSet then
        ({ st with
            storedRequests := st.storedRequests ++ [rec],
            refreshing := true,
            triggerEpoch := rec.epoch },
          [Output.refreshCall])
      else if session.isSet then
        runStoredRequest st rec session.value
      else
        ({ st with storedRequests := st.storedRequests ++ [rec] }, [])
  | .refreshDone token =>
      if st.refreshing then
        let sessions1 := st.sessions.set st.triggerEpoch { isSet := true, value := token }
        let directConnect1 :=
          match token with
          | some t =>
              st.directConnect.map (fun dc =>
                { dc with credentials := { dc.credentials with authToken := t } })
          | none => st.directConnect
        let st1 := { st with
            refreshing := false,
            sessions := sessions1 ++ [ReissuedToken.unset],
            current := sessions1.length,
            directConnect := directConnect1,
            storedRequests := [] }
        drainStored st1 st.storedRequests token
      else (st, [])
  | .resendDone resendHandle success result =>
      match st.substitutions.find? (fun p => p.2 == resendHandle) with
      | some (originalHandle, _) =>
          ({ st with
              substitutions := st.substitutions.filter (fun p => p.1 != originalHandle) },
            [Output.deliver success originalHandle result])
      | none => (st, [])

/-- Run a sequence of interaction-thread events, accumulating the
observable outputs. -/
def runTrace (st : BrokerState) (events : List BrokerEvent) :
    BrokerState × List Output :=
  match events with
  | [] => (st, [])
  | ev :: rest =>
      ((runTrace (brokerStep st ev).1 rest).1,
        (brokerStep st ev).2 ++ (runTrace (brokerStep st ev).1 rest).2)

/-- `ServerConnection::cancelRequest`, lines 3142-3167: the transport
handle actually terminated — the recorded resend handle when a
substitution for the request id exists, else the request id itself. -/
def cancelRequest (st : BrokerState) (requestId : Handle) : Handle :=
  match st.substitutions.find? (fun p => p.1 == requestId) with
  | some (_, actualId) => actualId
  | none => requestId

/-- `ServerConnection::prepareRequest`, lines 3292-3332: with a
direct-connect configuration the request is addressed and authenticated
from it; otherwise `setupAuth` supplies credentials from the system
context (its internals live outside this file, so its outcome is the
`systemAuth` argument); when neither yields authentication the
default-constructed request is returned. -/
def prepareRequest (st : BrokerState) (systemAuth : Option Credentials)
    (method contentType : Nat) (messageBody : MessageBody) (url : Nat) : Request :=
  match st.directConnect with
  | some dc =>
      { url := some url, method := method, contentType := contentType,
        messageBody := messageBody, credentials := some dc.credentials }
  | none =>
      match systemAuth with
      | some creds =>
          { url := some url, method := method, contentType := contentType,
            messageBody := messageBody, credentials := some creds }
      | none => emptyRequest

/-- The dispatch decision of `ServerConnection::jsonRpcBatchCall`, lines
1829-1832: a valid prepared request is handed to `executeRequest` and a
fresh transport handle is returned; an invalid one is not dispatched and
the null handle `Handle()` is returned, with no broker state touched. -/
def jsonRpcBatchCallSend (st : BrokerState) (request : Request) :
    BrokerState × Handle × List Output :=
  if request.isValid then
    ({ st with nextHandle := st.nextHandle + 1 }, st.nextHandle,
      [Output.dispatch st.nextHandle request])
  else (st, 0, [])

/-- `ServerConnection::updateCredentials`, lines 526-534: the
direct-connect credentials are replaced only when a direct-connect
configuration exists and the supplied credentials carry a bearer token;
otherwise the state is left untouched. -/
def updateCredentials (st : BrokerState) (credentials : Credentials) : BrokerState :=
  if st.directConnect.isSome && credentials.authToken.isBearerToken then
    { st with directConnect := st.directConnect.map (fun dc =>
        { dc with credentials := credentials }) }
  else st

/-! ### Trace scenarios and counting helpers -/

/-- Recognizes a `refreshToken` invocation. -/
def isRefreshCall : Output → Bool
  | .refreshCall => true
  | _ => false

/-- Recognizes a terminal delivery to the issuer of handle `h`. -/
def deliversTo (h : Handle) : Output → Bool
  | .deliver _ h2 _ => h2 == h
  | _ => false

/-- Recognizes a resend dispatched for original handle `h`. -/
def resendsOf (h : Handle) : Output → Bool
  | .resendDispatch h2 _ _ => h2 == h
  | _ => false

/-- Number of `refreshToken` invocations in an output trace. -/
def countRefreshCalls (outs : List Output) : Nat :=
  (outs.filter isRefreshCall).length

/-- Number of terminal deliveries to the issuer of handle `h`. -/
def countDeliversTo (outs : List Output) (h : Handle) : Nat :=
  (outs.filter (deliversTo h)).length

/-- Number of resends dispatched for original handle `h`. -/
def countResendsOf (outs : List Output) (h : Handle) : Nat :=
  (outs.filter (resendsOf h)).length

/-- One session-expired response arriving for each of the given in-flight
requests, in order. -/
def expireEvents (recs : List StoredRequest) : List BrokerEvent :=
  recs.map BrokerEvent.expire

/-- Transport completions for consecutively numbered resend handles,
carrying the listed results. -/
def mkResendDones : Handle → List (Bool × Nat) → List BrokerEvent
  | _, [] => []
  | h, (s, r) :: rest => BrokerEvent.resendDone h s r :: mkResendDones (h + 1) rest

/-- The substitution entries produced by resending the given requests
with consecutively numbered fresh handles. -/
def mkSubs : Handle → List StoredRequest → List (Handle × Handle)
  | _, [] => []
  | h, rec :: rest => (rec.handle, h) :: mkSubs (h + 1) rest

/-- The resend dispatches produced by draining the given requests with a
granted token. -/
def resendOutputs (token : AuthToken) : Handle → List StoredRequest → List Output
  | _, [] => []
  | h, rec :: rest =>
      Output.resendDispatch rec.handle h (resendRequestOf rec token) ::
        resendOutputs token (h + 1) rest

/-- The terminal deliveries produced by the resend completions: each
request's issuer receives the corresponding resend result under the
original handle. -/
def deliverOutputs : List StoredRequest → List (Bool × Nat) → List Output
  | rec :: recs, (s, r) :: res => Output.deliver s rec.handle r :: deliverOutputs recs res
  | _, _ => []

/-- The terminal deliveries of the declined-refresh fallback: each issuer
receives its original failure unchanged. -/
def origDeliverOutputs (recs : List StoredRequest) : List Output :=
  recs.map (fun rec => Output.deliver rec.success rec.handle rec.result)

/-- A quiescent broker: no stored retries, no substitutions, a single
fresh unset `ReissuedToken` installed as current, no refresh interaction
active. -/
def Idle (st : BrokerState) : Prop :=
  st.storedRequests = [] ∧ st.substitutions = [] ∧
    st.sessions = [ReissuedToken.unset] ∧ st.current = 0 ∧ st.refreshing = false

instance (st : BrokerState) : Decidable (Idle st) := by
  unfold Idle; infer_instance

/-! ### Step lemmas -/

theorem runTrace_append (es1 es2 : List BrokerEvent) : ∀ st : BrokerState,
    runTrace st (es1 ++ es2) =
      ((runTrace (runTrace st es1).1 es2).1,
        (runTrace st es1).2 ++ (runTrace (runTrace st es1).1 es2).2) := by
  induction es1 with
  | nil => intro st; simp [runTrace]
  | cons e rest ih => intro st; simp [runTrace, ih, List.append_assoc]

theorem brokerStep_expire_first (st : BrokerState) (rec : StoredRequest)
    (hq : st.storedRequests = []) (hs : (sessionAt st rec.epoch).isSet = false) :
    brokerStep st (BrokerEvent.expire rec) =
      ({ st with storedRequests := [rec], refreshing := true, triggerEpoch := rec.epoch },
        [Output.refreshCall]) := by
  simp [brokerStep, hq, hs]

theorem brokerStep_expire_enqueue (st : BrokerState) (rec : StoredRequest)
    (hq : st.storedRequests ≠ []) (hs : (sessionAt st rec.epoch).isSet = false) :
    brokerStep st (BrokerEvent.expire rec) =
      ({ st with storedRequests := st.storedRequests ++ [rec] }, []) := by
  simp [brokerStep, hs, hq]

theorem brokerStep_expire_resolved (st : BrokerState) (rec : StoredRequest)
    (hs : (sessionAt st rec.epoch).isSet = true) :
    brokerStep st (BrokerEvent.expire rec) =
      runStoredRequest st rec (sessionAt st rec.epoch).value := by
  simp [brokerStep, hs]

theorem brokerStep_refreshDone (st : BrokerState) (token : Option AuthToken)
    (hr : st.refreshing = true) :
    brokerStep st (BrokerEvent.refreshDone token) =
      drainStored
        { st with
            refreshing := false,
            sessions := st.sessions.set st.triggerEpoch { isSet := true, value := token }
              ++ [ReissuedToken.unset],
            current := (st.sessions.set st.triggerEpoch
              { isSet := true, value := token }).length,
            directConnect :=
              match token with
              | some t =>
                  st.directConnect.map (fun dc =>
                    { dc with credentials := { dc.credentials with authToken := t } })
              | none => st.directConnect,
            storedRequests := [] }
        st.storedRequests token := by
  simp [brokerStep, hr]

theorem runTrace_expire_enqueue (recs : List StoredRequest) : ∀ st : BrokerState,
    st.storedRequests ≠ [] →
    (∀ r ∈ recs, (sessionAt st r.epoch).isSet = false) →
    runTrace st (expireEvents recs) =
      ({ st with storedRequests := st.storedRequests ++ recs }, []) := by
  induction recs with
  | nil => intro st _ _; simp [expireEvents, runTrace]
  | cons r rest ih =>
      intro st hq hs
      have hstep := brokerStep_expire_enqueue st r hq (hs r (by simp))
      have hrest := ih { st with storedRequests := st.storedRequests ++ [r] }
        (by simp) (fun r2 h2 => hs r2 (by simp [h2]))
      simp only [expireEvents] at hrest
      simp only [expireEvents, List.map_cons, runTrace, hstep, hrest]
      simp [List.append_assoc]

theorem runTrace_expire_phase (st : BrokerState) (r1 : StoredRequest)
    (rest : List StoredRequest)
    (hq : st.storedRequests = [])
    (hs : ∀ r ∈ r1 :: rest, (sessionAt st r.epoch).isSet = false) :
    runTrace st (expireEvents (r1 :: rest)) =
      ({ st with
          storedRequests := r1 :: rest,
          refreshing := true,
          triggerEpoch := r1.epoch },
        [Output.refreshCall]) := by
  have hstep := brokerStep_expire_first st r1 hq (hs r1 (by simp))
  have hrest := runTrace_expire_enqueue rest
    { st with storedRequests := [r1], refreshing := true, triggerEpoch := r1.epoch }
    (by simp) (fun r2 h2 => hs r2 (by simp [h2]))
  simp only [expireEvents] at hrest
  simp only [expireEvents, List.map_cons, runTrace, hstep, hrest]
  simp

theorem drainStored_none (queue : List StoredRequest) : ∀ st : BrokerState,
    drainStored st queue none = (st, origDeliverOutputs queue) := by
  induction queue with
  | nil => intro st; simp [drainStored, origDeliverOutputs]
  | cons rec rest ih =>
      intro st
      simp [drainStored, runStoredRequest, origDeliverOutputs, ih]

theorem assocSet_of_not_mem (subs : List (Handle × Handle)) (key val : Handle)
    (h : key ∉ subs.map Prod.fst) :
    assocSet subs key val = subs ++ [(key, val)] := by
  induction subs with
  | nil => simp [assocSet]
  | cons p rest ih =>
      simp only [List.map_cons, List.mem_cons, not_or] at h
      simp [assocSet, Ne.symm h.1, ih h.2]

theorem mkSubs_keys (recs : List StoredRequest) : ∀ h : Handle,
    (mkSubs h recs).map Prod.fst = recs.map (fun r => r.handle) := by
  induction recs with
  | nil => intro h; simp [mkSubs]
  | cons rec rest ih => intro h; simp [mkSubs, ih]

theorem drainStored_some (t : AuthToken) (recs : List StoredRequest) :
    ∀ st : BrokerState,
    (recs.map (fun r => r.handle)).Nodup →
    (∀ r ∈ recs, r.handle ∉ st.substitutions.map Prod.fst) →
    drainStored st recs (some t) =
      ({ st with
          nextHandle := st.nextHandle + recs.length,
          substitutions := st.substitutions ++ mkSubs st.nextHandle recs },
        resendOutputs t st.nextHandle recs) := by
  induction recs with
  | nil => intro st _ _; simp [drainStored, mkSubs, resendOutputs]
  | cons rec rest ih =>
      intro st hnodup hdisj
      simp only [List.map_cons, List.nodup_cons] at hnodup
      have hset := assocSet_of_not_mem st.substitutions rec.handle st.nextHandle
        (hdisj rec (by simp))
      have hrest := ih
        { st with
            nextHandle := st.nextHandle + 1,
            substitutions := st.substitutions ++ [(rec.handle, st.nextHandle)] }
        hnodup.2
        (by
          intro r2 h2
          simp only [List.map_append, List.mem_append]
          push_neg
          refine ⟨hdisj r2 (by simp [h2]), ?_⟩
          simp only [List.map_cons, List.map_nil, List.mem_singleton]
          intro hc
          exact hnodup.1 (hc ▸ List.mem_map_of_mem (fun r => r.handle) h2))
      simp only [drainStored, runStoredRequest, hset, hrest]
      simp [mkSubs, resendOutputs, List.append_assoc]
      simp [Nat.add_comm, Nat.add_assoc, Nat.add_left_comm]

theorem deliverOutputs_nil (recs : List StoredRequest) :
    deliverOutputs recs [] = [] := by
  cases recs <;> rfl

theorem mkSubs_filter_ne (recs : List StoredRequest) (h : Handle) : ∀ h0 : Handle,
    h ∉ recs.map (fun r => r.handle) →
    (mkSubs h0 recs).filter (fun p => p.1 != h) = mkSubs h0 recs := by
  induction recs with
  | nil => intro h0 _; simp [mkSubs]
  | cons rec rest ih =>
      intro h0 hmem
      simp only [List.map_cons, List.mem_cons, not_or] at hmem
      have hne : (rec.handle != h) = true := by
        simp only [bne_iff_ne, ne_eq]
        exact fun e => hmem.1 e.symm
      simp [mkSubs, List.filter_cons, hne, ih (h0 + 1) hmem.2]

theorem runTrace_resendDones (res : List (Bool × Nat)) :
    ∀ (recs : List StoredRequest) (st : BrokerState) (h0 : Handle),
    st.substitutions = mkSubs h0 recs →
    (recs.map (fun r => r.handle)).Nodup →
    res.length ≤ recs.length →
    runTrace st (mkResendDones h0 res) =
      ({ st with substitutions := mkSubs (h0 + res.length) (recs.drop res.length) },
        deliverOutputs recs res) := by
  induction res with
  | nil =>
      intro recs st h0 hsubs _ _
      simp only [mkResendDones, runTrace, deliverOutputs_nil, List.length_nil, Nat.add_zero,
        List.drop_zero, ← hsubs]
  | cons sr resRest ih =>
      intro recs st h0 hsubs hnodup hlen
      obtain ⟨s, x⟩ := sr
      cases recs with
      | nil => simp at hlen
      | cons rec rest =>
          simp only [List.map_cons, List.nodup_cons] at hnodup
          have hsubs2 : st.substitutions = (rec.handle, h0) :: mkSubs (h0 + 1) rest := by
            rw [hsubs]; rfl
          have hfind : st.substitutions.find? (fun p => p.2 == h0) =
              some (rec.handle, h0) := by
            rw [hsubs2]; simp [List.find?]
          have hfilter : st.substitutions.filter (fun p => p.1 != rec.handle) =
              mkSubs (h0 + 1) rest := by
            rw [hsubs2]
            simp only [List.filter_cons, bne_self_eq_false, Bool.false_eq_true, if_false]
            exact mkSubs_filter_ne rest rec.handle (h0 + 1) hnodup.1
          have hrest := ih rest
            { st with substitutions := mkSubs (h0 + 1) rest } (h0 + 1)
            rfl hnodup.2 (by simpa using hlen)
          simp only [mkResendDones, runTrace, brokerStep, hfind, hfilter, hrest]
          simp [deliverOutputs, List.drop_succ_cons]
          simp [Nat.add_comm, Nat.add_assoc, Nat.add_left_comm]

/-! ### Counting lemmas -/

theorem countRefreshCalls_append (a b : List Output) :
    countRefreshCalls (a ++ b) = countRefreshCalls a + countRefreshCalls b := by
  simp [countRefreshCalls, List.filter_append]

theorem countDeliversTo_append (a b : List Output) (h : Handle) :
    countDeliversTo (a ++ b) h = countDeliversTo a h + countDeliversTo b h := by
  simp [countDeliversTo, List.filter_append]

theorem countResendsOf_append (a b : List Output) (h : Handle) :
    countResendsOf (a ++ b) h = countResendsOf a h + countResendsOf b h := by
  simp [countResendsOf, List.filter_append]

theorem countRefreshCalls_cons (o : Output) (outs : List Output) :
    countRefreshCalls (o :: outs) =
      (if isRefreshCall o then 1 else 0) + countRefreshCalls outs := by
  simp only [countRefreshCalls, List.filter_cons]
  split <;> simp [Nat.add_comm]

theorem countDeliversTo_cons (o : Output) (outs : List Output) (h : Handle) :
    countDeliversTo (o :: outs) h =
      (if deliversTo h o then 1 else 0) + countDeliversTo outs h := by
  simp only [countDeliversTo, List.filter_cons]
  split <;> simp [Nat.add_comm]

theorem countResendsOf_cons (o : Output) (outs : List Output) (h : Handle) :
    countResendsOf (o :: outs) h =
      (if resendsOf h o then 1 else 0) + countResendsOf outs h := by
  simp only [countResendsOf, List.filter_cons]
  split <;> simp [Nat.add_comm]

theorem countRefreshCalls_resendOutputs (t : AuthToken) (recs : List StoredRequest) :
    ∀ h0 : Handle, countRefreshCalls (resendOutputs t h0 recs) = 0 := by
  induction recs with
  | nil => intro h0; simp [resendOutputs, countRefreshCalls]
  | cons rec rest ih =>
      intro h0
      simp [resendOutputs, countRefreshCalls, isRefreshCall] at ih ⊢
      exact ih (h0 + 1)

theorem countRefreshCalls_deliverOutputs (recs : List StoredRequest) :
    ∀ res : List (Bool × Nat), countRefreshCalls (deliverOutputs recs res) = 0 := by
  induction recs with
  | nil => intro res; cases res <;> simp [deliverOutputs, countRefreshCalls]
  | cons rec rest ih =>
      intro res
      cases res with
      | nil => simp [deliverOutputs, countRefreshCalls]
      | cons p ps =>
          obtain ⟨s, x⟩ := p
          simp [deliverOutputs, countRefreshCalls, isRefreshCall] at ih ⊢
          exact ih ps

theorem countRefreshCalls_origDeliverOutputs (recs : List StoredRequest) :
    countRefreshCalls (origDeliverOutputs recs) = 0 := by
  induction recs with
  | nil => simp [origDeliverOutputs, countRefreshCalls]
  | cons rec rest ih =>
      simp [origDeliverOutputs, countRefreshCalls, isRefreshCall, ih]

theorem countDeliversTo_resendOutputs (t : AuthToken) (recs : List StoredRequest)
    (h : Handle) : ∀ h0 : Handle, countDeliversTo (resendOutputs t h0 recs) h = 0 := by
  induction recs with
  | nil => intro h0; simp [resendOutputs, countDeliversTo]
  | cons rec rest ih =>
      intro h0
      simp [resendOutputs, countDeliversTo, deliversTo] at ih ⊢
      exact ih (h0 + 1)

theorem countResendsOf_deliverOutputs (recs : List StoredRequest) (h : Handle) :
    ∀ res : List (Bool × Nat), countResendsOf (deliverOutputs recs res) h = 0 := by
  induction recs with
  | nil => intro res; cases res <;> simp [deliverOutputs, countResendsOf]
  | cons rec rest ih =>
      intro res
      cases res with
      | nil => simp [deliverOutputs, countResendsOf]
      | cons p ps =>
          obtain ⟨s, x⟩ := p
          simp [deliverOutputs, countResendsOf, resendsOf] at ih ⊢
          exact ih ps

theorem countResendsOf_origDeliverOutputs (recs : List StoredRequest) (h : Handle) :
    countResendsOf (origDeliverOutputs recs) h = 0 := by
  induction recs with
  | nil => simp [origDeliverOutputs, countResendsOf]
  | cons rec rest ih =>
      simp [origDeliverOutputs, countResendsOf, resendsOf, ih]

theorem countDeliversTo_deliverOutputs (recs : List StoredRequest) (h : Handle) :
    ∀ res : List (Bool × Nat), res.length = recs.length →
    countDeliversTo (deliverOutputs recs res) h =
      (recs.filter (fun r => r.handle == h)).length := by
  induction recs with
  | nil => intro res hlen; cases res <;> simp_all [deliverOutputs, countDeliversTo]
  | cons rec rest ih =>
      intro res hlen
      cases res with
      | nil => simp at hlen
      | cons p ps =>
          obtain ⟨s, x⟩ := p
          have := ih ps (by simpa using hlen)
          by_cases hh : rec.handle == h
          · simp [deliverOutputs, countDeliversTo, deliversTo, List.filter_cons, hh,
              countDeliversTo_append] at this ⊢
            omega
          · simp only [Bool.not_eq_true] at hh
            simp [deliverOutputs, countDeliversTo, deliversTo, List.filter_cons, hh,
              countDeliversTo_append] at this ⊢
            exact this

theorem countDeliversTo_origDeliverOutputs (recs : List StoredRequest) (h : Handle) :
    countDeliversTo (origDeliverOutputs recs) h =
      (recs.filter (fun r => r.handle == h)).length := by
  induction recs with
  | nil => simp [origDeliverOutputs, countDeliversTo]
  | cons rec rest ih =>
      by_cases hh : rec.handle == h
      · simp [origDeliverOutputs, countDeliversTo, deliversTo, List.filter_cons, hh] at ih ⊢
        omega
      · simp only [Bool.not_eq_true] at hh
        simp [origDeliverOutputs, countDeliversTo, deliversTo, List.filter_cons, hh] at ih ⊢
        exact ih

theorem countResendsOf_resendOutputs (t : AuthToken) (recs : List StoredRequest)
    (h : Handle) : ∀ h0 : Handle,
    countResendsOf (resendOutputs t h0 recs) h =
      (recs.filter (fun r => r.handle == h)).length := by
  induction recs with
  | nil => intro h0; simp [resendOutputs, countResendsOf]
  | cons rec rest ih =>
      intro h0
      by_cases hh : rec.handle == h
      · simp [resendOutputs, countResendsOf, resendsOf, List.filter_cons, hh] at ih ⊢
        have := ih (h0 + 1)
        omega
      · simp only [Bool.not_eq_true] at hh
        simp [resendOutputs, countResendsOf, resendsOf, List.filter_cons, hh] at ih ⊢
        exact ih (h0 + 1)

theorem filter_handle_eq_nil (recs : List StoredRequest) (h : Handle)
    (hmem : h ∉ recs.map (fun r => r.handle)) :
    recs.filter (fun r => r.handle == h) = [] := by
  induction recs with
  | nil => rfl
  | cons rec rest ih =>
      simp only [List.map_cons, List.mem_cons, not_or] at hmem
      have hne : (rec.handle == h) = false := by
        simp only [beq_eq_false_iff_ne, ne_eq]
        exact fun e => hmem.1 e.symm
      simp [List.filter_cons, hne, ih hmem.2]

theorem length_filter_handle_of_mem (recs : List StoredRequest) (r : StoredRequest) :
    r ∈ recs → (recs.map (fun x => x.handle)).Nodup →
    (recs.filter (fun x => x.handle == r.handle)).length = 1 := by
  induction recs with
  | nil => intro hmem _; simp at hmem
  | cons rec rest ih =>
      intro hmem hnodup
      simp only [List.map_cons, List.nodup_cons] at hnodup
      rcases List.mem_cons.mp hmem with heq | hmem2
      · subst heq
        have hnil := filter_handle_eq_nil rest r.handle hnodup.1
        simp [List.filter_cons, hnil]
      · have hne : (rec.handle == r.handle) = false := by
          simp only [beq_eq_false_iff_ne, ne_eq]
          intro e
          exact hnodup.1 (e ▸ List.mem_map_of_mem (fun x => x.handle) hmem2)
        simp [List.filter_cons, hne, ih hmem2 hnodup.2]

theorem length_filter_handle_le_one (recs : List StoredRequest) (h : Handle) :
    (recs.map (fun x => x.handle)).Nodup →
    (recs.filter (fun x => x.handle == h)).length ≤ 1 := by
  induction recs with
  | nil => intro _; simp
  | cons rec rest ih =>
      intro hnodup
      simp only [List.map_cons, List.nodup_cons] at hnodup
      by_cases hh : rec.handle == h
      · have he : rec.handle = h := by simpa using hh
        simp [List.filter_cons, hh, filter_handle_eq_nil rest h (he ▸ hnodup.1)]
      · simp only [Bool.not_eq_true] at hh
        simp [List.filter_cons, hh]
        exact ih hnodup.2

theorem deliver_mem_deliverOutputs (recs : List StoredRequest) :
    ∀ (res : List (Bool × Nat)) (s : Bool) (h : Handle) (x : Nat),
    Output.deliver s h x ∈ deliverOutputs recs res →
    h ∈ recs.map (fun r => r.handle) := by
  induction recs with
  | nil => intro res s h x hmem; cases res <;> simp [deliverOutputs] at hmem
  | cons rec rest ih =>
      intro res s h x hmem
      cases res with
      | nil => simp [deliverOutputs] at hmem
      | cons p ps =>
          obtain ⟨s2, x2⟩ := p
          simp only [deliverOutputs, List.mem_cons] at hmem
          rcases hmem with heq | hmem2
          · simp only [Output.deliver.injEq] at heq
            simp [heq.2.1]
          · simp only [List.map_cons, List.mem_cons]
            exact Or.inr (ih ps s h x hmem2)

theorem resend_mem_resendOutputs (t : AuthToken) (recs : List StoredRequest) :
    ∀ (h0 a b : Handle) (q : Request),
    Output.resendDispatch a b q ∈ resendOutputs t h0 recs →
    a ∈ recs.map (fun r => r.handle) ∧ h0 ≤ b := by
  induction recs with
  | nil => intro h0 a b q hmem; simp [resendOutputs] at hmem
  | cons rec rest ih =>
      intro h0 a b q hmem
      simp only [resendOutputs, List.mem_cons] at hmem
      rcases hmem with heq | hmem2
      · simp only [Output.resendDispatch.injEq] at heq
        simp [heq.1, heq.2.1]
      · have := ih (h0 + 1) a b q hmem2
        exact ⟨by simp [this.1], Nat.le_trans (Nat.le_succ h0) this.2⟩

theorem resendOutputs_get_mem (t : AuthToken) (recs : List StoredRequest) :
    ∀ (h0 : Handle) (i : Fin recs.length),
    Output.resendDispatch (recs.get i).handle (h0 + i.val)
      (resendRequestOf (recs.get i) t) ∈ resendOutputs t h0 recs := by
  induction recs with
  | nil => intro h0 i; exact absurd i.2 (by simp)
  | cons rec rest ih =>
      intro h0 i
      rcases i with ⟨iv, hi⟩
      cases iv with
      | zero => simp [resendOutputs]
      | succ n =>
          have hn : n < rest.length := Nat.lt_of_succ_lt_succ hi
          have := ih (h0 + 1) ⟨n, hn⟩
          simp only [resendOutputs, List.mem_cons]
          refine Or.inr ?_
          have harith : h0 + (n + 1) = h0 + 1 + n := by
            simp [Nat.add_comm, Nat.add_assoc, Nat.add_left_comm]
          simp only [List.get_cons_succ, Fin.val_mk, harith]
          exact this

theorem no_resend_in_origDeliverOutputs (recs : List StoredRequest)
    (a b : Handle) (q : Request) :
    Output.resendDispatch a b q ∉ origDeliverOutputs recs := by
  simp [origDeliverOutputs]

theorem cancelRequest_of_not_key (st : BrokerState) (h : Handle)
    (hmem : h ∉ st.substitutions.map Prod.fst) :
    cancelRequest st h = h := by
  have hnone : st.substitutions.find? (fun p => p.1 == h) = none := by
    apply List.find?_eq_none.mpr
    intro p hp
    simp only [beq_eq_false_iff_ne, ne_eq, Bool.not_eq_true, beq_iff_eq]
    intro hc
    exact hmem (hc ▸ List.mem_map_of_mem Prod.fst hp)
  simp [cancelRequest, hnone]

theorem find_mkSubs (recs : List StoredRequest) :
    ∀ (h0 : Handle) (i : Fin recs.length),
    (recs.map (fun r => r.handle)).Nodup →
    (mkSubs h0 recs).find? (fun p => p.1 == (recs.get i).handle) =
      some ((recs.get i).handle, h0 + i.val) := by
  induction recs with
  | nil => intro h0 i _; exact absurd i.2 (by simp)
  | cons rec rest ih =>
      intro h0 i hnodup
      simp only [List.map_cons, List.nodup_cons] at hnodup
      rcases i with ⟨iv, hi⟩
      cases iv with
      | zero => simp [mkSubs, List.find?]
      | succ n =>
          have hn : n < rest.length := Nat.lt_of_succ_lt_succ hi
          have hne2 : (rec.handle == (rest.get ⟨n, hn⟩).handle) = false := by
            simp only [beq_eq_false_iff_ne, ne_eq]
            intro e
            exact hnodup.1 (e ▸ List.mem_map_of_mem (fun r => r.handle)
              (rest.get_mem n hn))
          have hrec := ih (h0 + 1) ⟨n, hn⟩ hnodup.2
          have hget : (rec :: rest).get ⟨n + 1, hi⟩ = rest.get ⟨n, hn⟩ := rfl
          have hmk : mkSubs h0 (rec :: rest) = (rec.handle, h0) :: mkSubs (h0 + 1) rest := rfl
          have hskip : List.find? (fun p => p.1 == (rest.get ⟨n, hn⟩).handle)
              ((rec.handle, h0) :: mkSubs (h0 + 1) rest) =
              List.find? (fun p => p.1 == (rest.get ⟨n, hn⟩).handle)
                (mkSubs (h0 + 1) rest) := by
            simp only [List.get_eq_getElem] at hne2
            simp [List.find?, hne2]
          rw [hget, hmk, hskip, hrec]
          simp only [Fin.val_mk, Option.some.injEq, Prod.mk.injEq, true_and]
          simp [Nat.add_comm, Nat.add_assoc, Nat.add_left_comm]

theorem cancelRequest_mkSubs (recs : List StoredRequest)
    (h0 : Handle) (st : BrokerState) (i : Fin recs.length)
    (hsubs : st.substitutions = mkSubs h0 recs)
    (hnodup : (recs.map (fun r => r.handle)).Nodup) :
    cancelRequest st (recs.get i).handle = h0 + i.val := by
  have hf := find_mkSubs recs h0 i hnodup
  simp only [cancelRequest, hsubs]
  simp only [List.get_eq_getElem] at hf
  simp [hf]

/-- Closed form of the grant scenario: from an idle broker, `N = 1 + |rest|`
session-expired responses arrive before the refresh interaction returns,
and the interaction then yields a token. Exactly one `refreshToken` call
is made, and each waiter is resent in FIFO order with a fresh handle. -/
theorem runTrace_grantPhase (st : BrokerState) (r1 : StoredRequest)
    (rest : List StoredRequest) (t : AuthToken)
    (hIdle : Idle st)
    (hepoch : ∀ r ∈ r1 :: rest, r.epoch = 0)
    (hnodup : ((r1 :: rest).map (fun r => r.handle)).Nodup) :
    runTrace st (expireEvents (r1 :: rest) ++ [BrokerEvent.refreshDone (some t)]) =
      ({ st with
          storedRequests := [],
          refreshing := false,
          triggerEpoch := 0,
          sessions := [{ isSet := true, value := some t }, ReissuedToken.unset],
          current := 1,
          directConnect := st.directConnect.map (fun dc =>
            { dc with credentials := { dc.credentials with authToken := t } }),
          nextHandle := st.nextHandle + (r1 :: rest).length,
          substitutions := mkSubs st.nextHandle (r1 :: rest) },
        Output.refreshCall :: resendOutputs t st.nextHandle (r1 :: rest)) := by
  obtain ⟨hq, hsub, hsess, hcur, href⟩ := hIdle
  have hsA : ∀ r ∈ r1 :: rest, (sessionAt st r.epoch).isSet = false := by
    intro r hr
    rw [hepoch r hr]
    simp [sessionAt, hsess, ReissuedToken.unset]
  rw [runTrace_append, runTrace_expire_phase st r1 rest hq hsA]
  have he1 : r1.epoch = 0 := hepoch r1 (by simp)
  simp only [runTrace]
  rw [brokerStep_refreshDone _ (some t) rfl]
  simp only [he1, hsess]
  rw [drainStored_some t (r1 :: rest) _ hnodup (by simp [hsub])]
  simp [hsub, ReissuedToken.unset]

/-- Closed form of the decline scenario: from an idle broker, the expired
requests queue up, the refresh interaction yields no token, and every
waiter delivers its original failure to its issuer; nothing is resent. -/
theorem runTrace_declinePhase (st : BrokerState) (r1 : StoredRequest)
    (rest : List StoredRequest)
    (hIdle : Idle st)
    (hepoch : ∀ r ∈ r1 :: rest, r.epoch = 0) :
    runTrace st (expireEvents (r1 :: rest) ++ [BrokerEvent.refreshDone none]) =
      ({ st with
          storedRequests := [],
          refreshing := false,
          triggerEpoch := 0,
          sessions := [{ isSet := true, value := none }, ReissuedToken.unset],
          current := 1 },
        Output.refreshCall :: origDeliverOutputs (r1 :: rest)) := by
  obtain ⟨hq, hsub, hsess, hcur, href⟩ := hIdle
  have hsA : ∀ r ∈ r1 :: rest, (sessionAt st r.epoch).isSet = false := by
    intro r hr
    rw [hepoch r hr]
    simp [sessionAt, hsess, ReissuedToken.unset]
  rw [runTrace_append, runTrace_expire_phase st r1 rest hq hsA]
  have he1 : r1.epoch = 0 := hepoch r1 (by simp)
  simp only [runTrace]
  rw [brokerStep_refreshDone _ none rfl]
  simp only [he1, hsess]
  rw [drainStored_none]
  simp [ReissuedToken.unset]

theorem no_deliver_in_resendOutputs (t : AuthToken) (recs : List StoredRequest) :
    ∀ (h0 : Handle) (s : Bool) (h : Handle) (x : Nat),
    Output.deliver s h x ∉ resendOutputs t h0 recs := by
  induction recs with
  | nil => intro h0 s h x; simp [resendOutputs]
  | cons rec rest ih =>
      intro h0 s h x
      simp only [resendOutputs, List.mem_cons, not_or]
      exact ⟨by simp, ih (h0 + 1) s h x⟩

theorem no_resend_in_deliverOutputs (recs : List StoredRequest) :
    ∀ (res : List (Bool × Nat)) (a b : Handle) (q : Request),
    Output.resendDispatch a b q ∉ deliverOutputs recs res := by
  induction recs with
  | nil => intro res a b q; cases res <;> simp [deliverOutputs]
  | cons rec rest ih =>
      intro res a b q
      cases res with
      | nil => simp [deliverOutputs]
      | cons p ps =>
          obtain ⟨s2, x2⟩ := p
          simp only [deliverOutputs, List.mem_cons, not_or]
          exact ⟨by simp, ih ps a b q⟩

/-- The full single-flight scenario: all expiries arrive while the refresh
interaction is active, the interaction resolves, and — when a token was
granted — every resend completes. -/
def singleFlightTrace (st : BrokerState) (recs : List StoredRequest)
    (token : Option AuthToken) (res : List (Bool × Nat)) : List BrokerEvent :=
  expireEvents recs ++ [BrokerEvent.refreshDone token] ++
    (match token with
     | none => []
     | some _ => mkResendDones st.nextHandle res)

/-- C1: with N = 1 + |rest| ≥ 2 session-aware requests all discovering
expiry before the reauthorization resolves, `refreshToken` is invoked
exactly once; the requests that expire while the interaction is active
are enqueued on `storedRequests` behind the trigger in arrival order; and
every one of the N issuers receives exactly one terminal result, whatever
the outcome of the refresh. -/
theorem singleFlight_refresh_once
    (st : BrokerState) (r1 : StoredRequest) (rest : List StoredRequest)
    (token : Option AuthToken) (res : List (Bool × Nat))
    (hIdle : Idle st)
    (hlen : 1 ≤ rest.length)
    (hepoch : ∀ r ∈ r1 :: rest, r.epoch = 0)
    (hnodup : ((r1 :: rest).map (fun r => r.handle)).Nodup)
    (hres : res.length = (r1 :: rest).length) :
    countRefreshCalls (runTrace st (singleFlightTrace st (r1 :: rest) token res)).2 = 1 ∧
    (runTrace st (expireEvents (r1 :: rest))).1.storedRequests = r1 :: rest ∧
    (∀ r ∈ r1 :: rest,
      countDeliversTo (runTrace st (singleFlightTrace st (r1 :: rest) token res)).2
        r.handle = 1) := by
  obtain ⟨hq, hsub, hsess, hcur, href⟩ := hIdle
  have hsA : ∀ r ∈ r1 :: rest, (sessionAt st r.epoch).isSet = false := by
    intro r hr
    rw [hepoch r hr]
    simp [sessionAt, hsess, ReissuedToken.unset]
  have hstored : (runTrace st (expireEvents (r1 :: rest))).1.storedRequests = r1 :: rest := by
    rw [runTrace_expire_phase st r1 rest hq hsA]
  cases token with
  | none =>
      have hphase := runTrace_declinePhase st r1 rest
        ⟨hq, hsub, hsess, hcur, href⟩ hepoch
      have htr : singleFlightTrace st (r1 :: rest) none res =
          expireEvents (r1 :: rest) ++ [BrokerEvent.refreshDone none] := by
        simp [singleFlightTrace]
      rw [htr, hphase]
      refine ⟨?_, hstored, ?_⟩
      · rw [countRefreshCalls_cons, countRefreshCalls_origDeliverOutputs]
        simp [isRefreshCall]
      · intro r hr
        have hone := length_filter_handle_of_mem (r1 :: rest) r hr hnodup
        rw [countDeliversTo_cons, countDeliversTo_origDeliverOutputs, hone]
        simp [deliversTo]
  | some t =>
      have hphase := runTrace_grantPhase st r1 rest t
        ⟨hq, hsub, hsess, hcur, href⟩ hepoch hnodup
      have htr : singleFlightTrace st (r1 :: rest) (some t) res =
          (expireEvents (r1 :: rest) ++ [BrokerEvent.refreshDone (some t)]) ++
            mkResendDones st.nextHandle res := by
        simp [singleFlightTrace]
      rw [htr, runTrace_append, hphase]
      have hdones := runTrace_resendDones res (r1 :: rest)
        ({ st with
            storedRequests := [],
            refreshing := false,
            triggerEpoch := 0,
            sessions := [{ isSet := true, value := some t }, ReissuedToken.unset],
            current := 1,
            directConnect := st.directConnect.map (fun dc =>
              { dc with credentials := { dc.credentials with authToken := t } }),
            nextHandle := st.nextHandle + (r1 :: rest).length,
            substitutions := mkSubs st.nextHandle (r1 :: rest) })
        st.nextHandle rfl hnodup (le_of_eq hres)
      rw [hdones]
      refine ⟨?_, hstored, ?_⟩
      · rw [countRefreshCalls_append, countRefreshCalls_cons,
          countRefreshCalls_resendOutputs t (r1 :: rest) st.nextHandle,
          countRefreshCalls_deliverOutputs (r1 :: rest) res]
        simp [isRefreshCall]
      · intro r hr
        have hone := length_filter_handle_of_mem (r1 :: rest) r hr hnodup
        rw [countDeliversTo_append, countDeliversTo_cons,
          countDeliversTo_resendOutputs t (r1 :: rest) r.handle st.nextHandle,
          countDeliversTo_deliverOutputs (r1 :: rest) r.handle res hres, hone]
        simp [deliversTo]

/-- C3: when the refresh interaction yields no token, every waiter —
including the trigger — delivers its original failure (original success
flag, original handle, original result) to its issuer; no resend is
dispatched for any of them, and the substitution map is untouched. -/
theorem decline_fallback_delivers_originals (st : BrokerState)
    (r1 : StoredRequest) (rest : List StoredRequest)
    (hIdle : Idle st)
    (hepoch : ∀ r ∈ r1 :: rest, r.epoch = 0) :
    (runTrace st (expireEvents (r1 :: rest) ++ [BrokerEvent.refreshDone none])).2 =
      Output.refreshCall ::
        (r1 :: rest).map (fun r => Output.deliver r.success r.handle r.result) ∧
    (∀ a b q, Output.resendDispatch a b q ∉
      (runTrace st (expireEvents (r1 :: rest) ++ [BrokerEvent.refreshDone none])).2) ∧
    (runTrace st
        (expireEvents (r1 :: rest) ++ [BrokerEvent.refreshDone none])).1.substitutions =
      st.substitutions := by
  rw [runTrace_declinePhase st r1 rest hIdle hepoch]
  refine ⟨rfl, ?_, rfl⟩
  intro a b q
  simp only [List.mem_cons, not_or]
  exact ⟨by simp, no_resend_in_origDeliverOutputs (r1 :: rest) a b q⟩

/-- C2: in the granted-token scenario, every terminal delivery is made
under an original handle — never under a resend's internal handle; the
substitution entry of each original handle is present exactly until that
request's resend completes (whether the resend succeeded or failed, per
the arbitrary success flags in `res`); and at most one resend is ever
dispatched per original handle. -/
theorem resend_correlation
    (st : BrokerState) (r1 : StoredRequest) (rest : List StoredRequest)
    (t : AuthToken) (res : List (Bool × Nat))
    (hIdle : Idle st)
    (hepoch : ∀ r ∈ r1 :: rest, r.epoch = 0)
    (hnodup : ((r1 :: rest).map (fun r => r.handle)).Nodup)
    (hres : res.length = (r1 :: rest).length)
    (hfresh : ∀ r ∈ r1 :: rest, r.handle < st.nextHandle) :
    (∀ s h x, Output.deliver s h x ∈
        (runTrace st (singleFlightTrace st (r1 :: rest) (some t) res)).2 →
      h ∈ (r1 :: rest).map (fun r => r.handle) ∧
      ∀ a b q, Output.resendDispatch a b q ∈
          (runTrace st (singleFlightTrace st (r1 :: rest) (some t) res)).2 → h ≠ b) ∧
    (∀ k, k ≤ res.length →
      (runTrace st (expireEvents (r1 :: rest) ++ [BrokerEvent.refreshDone (some t)] ++
          mkResendDones st.nextHandle (res.take k))).1.substitutions =
        mkSubs (st.nextHandle + k) ((r1 :: rest).drop k)) ∧
    (∀ h, countResendsOf
        (runTrace st (singleFlightTrace st (r1 :: rest) (some t) res)).2 h ≤ 1) := by
  obtain ⟨hq, hsub, hsess, hcur, href⟩ := hIdle
  have hphase := runTrace_grantPhase st r1 rest t ⟨hq, hsub, hsess, hcur, href⟩ hepoch hnodup
  have htr : singleFlightTrace st (r1 :: rest) (some t) res =
      (expireEvents (r1 :: rest) ++ [BrokerEvent.refreshDone (some t)]) ++
        mkResendDones st.nextHandle res := by
    simp [singleFlightTrace]
  have hdones := runTrace_resendDones res (r1 :: rest)
    ({ st with
        storedRequests := [],
        refreshing := false,
        triggerEpoch := 0,
        sessions := [{ isSet := true, value := some t }, ReissuedToken.unset],
        current := 1,
        directConnect := st.directConnect.map (fun dc =>
          { dc with credentials := { dc.credentials with authToken := t } }),
        nextHandle := st.nextHandle + (r1 :: rest).length,
        substitutions := mkSubs st.nextHandle (r1 :: rest) })
    st.nextHandle rfl hnodup (le_of_eq hres)
  have houts : (runTrace st (singleFlightTrace st (r1 :: rest) (some t) res)).2 =
      (Output.refreshCall :: resendOutputs t st.nextHandle (r1 :: rest)) ++
        deliverOutputs (r1 :: rest) res := by
    rw [htr, runTrace_append, hphase, hdones]
  have hresendMem : ∀ a b q, Output.resendDispatch a b q ∈
      (runTrace st (singleFlightTrace st (r1 :: rest) (some t) res)).2 →
      st.nextHandle ≤ b := by
    intro a b q hmem
    rw [houts] at hmem
    rcases List.mem_append.mp hmem with hmem1 | hmem2
    · rcases List.mem_cons.mp hmem1 with heq | hmem1b
      · exact absurd heq (by simp)
      · exact (resend_mem_resendOutputs t (r1 :: rest) st.nextHandle a b q hmem1b).2
    · exact absurd hmem2 (no_resend_in_deliverOutputs (r1 :: rest) res a b q)
  refine ⟨?_, ?_, ?_⟩
  · intro s h x hmem
    rw [houts] at hmem
    have hh : h ∈ (r1 :: rest).map (fun r => r.handle) := by
      rcases List.mem_append.mp hmem with hmem1 | hmem2
      · rcases List.mem_cons.mp hmem1 with heq | hmem1b
        · exact absurd heq (by simp)
        · exact absurd hmem1b (no_deliver_in_resendOutputs t (r1 :: rest) st.nextHandle s h x)
      · exact deliver_mem_deliverOutputs (r1 :: rest) res s h x hmem2
    refine ⟨hh, ?_⟩
    intro a b q hmemr
    have hb := hresendMem a b q hmemr
    rcases List.mem_map.mp hh with ⟨r, hr, hrh⟩
    have hlt := hfresh r hr
    exact Nat.ne_of_lt (Nat.lt_of_lt_of_le (hrh ▸ hlt) hb)
  · intro k hk
    have hktake : (res.take k).length = k := by
      rw [List.length_take]
      exact Nat.min_eq_left hk
    have hdonesk := runTrace_resendDones (res.take k) (r1 :: rest)
      ({ st with
          storedRequests := [],
          refreshing := false,
          triggerEpoch := 0,
          sessions := [{ isSet := true, value := some t }, ReissuedToken.unset],
          current := 1,
          directConnect := st.directConnect.map (fun dc =>
            { dc with credentials := { dc.credentials with authToken := t } }),
          nextHandle := st.nextHandle + (r1 :: rest).length,
          substitutions := mkSubs st.nextHandle (r1 :: rest) })
      st.nextHandle rfl hnodup (by rw [hktake, ← hres]; exact hk)
    rw [runTrace_append, hphase, hdonesk, hktake]
  · intro h
    rw [houts, countResendsOf_append, countResendsOf_cons,
      countResendsOf_resendOutputs t (r1 :: rest) h st.nextHandle,
      countResendsOf_deliverOutputs (r1 :: rest) h res]
    have hle := length_filter_handle_le_one (r1 :: rest) h hnodup
    simpa [resendsOf] using hle

/-- C4: cancellation routing through the substitution map, at every stage
of the resend lifecycle: before any resend is recorded the original
handle itself is terminated; while a resend is live, cancelling the
original handle terminates exactly the dispatched resend handle; after
the resend completes (entry removed), the original handle is terminated
directly again. -/
theorem cancel_routing
    (st : BrokerState) (r1 : StoredRequest) (rest : List StoredRequest)
    (t : AuthToken) (res : List (Bool × Nat))
    (hIdle : Idle st)
    (hepoch : ∀ r ∈ r1 :: rest, r.epoch = 0)
    (hnodup : ((r1 :: rest).map (fun r => r.handle)).Nodup)
    (hres : res.length = (r1 :: rest).length) :
    (∀ r ∈ r1 :: rest,
      cancelRequest (runTrace st (expireEvents (r1 :: rest))).1 r.handle = r.handle) ∧
    (∀ i : Fin (r1 :: rest).length,
      cancelRequest
          (runTrace st
            (expireEvents (r1 :: rest) ++ [BrokerEvent.refreshDone (some t)])).1
          (((r1 :: rest).get i).handle) = st.nextHandle + i.val ∧
      Output.resendDispatch ((r1 :: rest).get i).handle (st.nextHandle + i.val)
          (resendRequestOf ((r1 :: rest).get i) t) ∈
        (runTrace st
          (expireEvents (r1 :: rest) ++ [BrokerEvent.refreshDone (some t)])).2) ∧
    (∀ r ∈ r1 :: rest,
      cancelRequest
          (runTrace st
            (expireEvents (r1 :: rest) ++ [BrokerEvent.refreshDone (some t)] ++
              mkResendDones st.nextHandle res)).1 r.handle = r.handle) := by
  obtain ⟨hq, hsub, hsess, hcur, href⟩ := hIdle
  have hsA : ∀ r ∈ r1 :: rest, (sessionAt st r.epoch).isSet = false := by
    intro r hr
    rw [hepoch r hr]
    simp [sessionAt, hsess, ReissuedToken.unset]
  have hphase := runTrace_grantPhase st r1 rest t ⟨hq, hsub, hsess, hcur, href⟩ hepoch hnodup
  have hdones := runTrace_resendDones res (r1 :: rest)
    ({ st with
        storedRequests := [],
        refreshing := false,
        triggerEpoch := 0,
        sessions := [{ isSet := true, value := some t }, ReissuedToken.unset],
        current := 1,
        directConnect := st.directConnect.map (fun dc =>
          { dc with credentials := { dc.credentials with authToken := t } }),
        nextHandle := st.nextHandle + (r1 :: rest).length,
        substitutions := mkSubs st.nextHandle (r1 :: rest) })
    st.nextHandle rfl hnodup (le_of_eq hres)
  refine ⟨?_, ?_, ?_⟩
  · intro r hr
    rw [runTrace_expire_phase st r1 rest hq hsA]
    exact cancelRequest_of_not_key _ r.handle (by simp [hsub])
  · intro i
    rw [hphase]
    constructor
    · exact cancelRequest_mkSubs (r1 :: rest) st.nextHandle _ i rfl hnodup
    · exact List.mem_cons_of_mem _ (resendOutputs_get_mem t (r1 :: rest) st.nextHandle i)
  · intro r hr
    rw [runTrace_append, hphase, hdones]
    apply cancelRequest_of_not_key _ r.handle
    rw [hres, List.drop_length]
    simp [mkSubs]

/-- C8 (amended): after the first Reauthorization Session resolves, a
fresh unset session object is the broker's current session and the waiter
queue is empty; a session-expired response of a request dispatched after
the reset (it captured the fresh session, epoch 1) triggers a brand-new
`refreshToken` call, so the arbitrator never latches; but a late
session-expired response of a request that captured the resolved session
(epoch 0) does not trigger a new refresh — it is retried once with the
already-resolved token. -/
theorem epoch_reset_no_latch
    (st : BrokerState) (r1 r2 r3 : StoredRequest) (token : Option AuthToken)
    (t : AuthToken)
    (hIdle : Idle st)
    (he1 : r1.epoch = 0) (he2 : r2.epoch = 1) (he3 : r3.epoch = 0)
    (hne13 : r3.handle ≠ r1.handle) :
    (sessionAt (runTrace st (expireEvents [r1] ++ [BrokerEvent.refreshDone token])).1
        (runTrace st (expireEvents [r1] ++ [BrokerEvent.refreshDone token])).1.current =
      ReissuedToken.unset ∧
      (runTrace st
        (expireEvents [r1] ++ [BrokerEvent.refreshDone token])).1.storedRequests = []) ∧
    countRefreshCalls
      (runTrace st (expireEvents [r1] ++ [BrokerEvent.refreshDone token] ++
        [BrokerEvent.expire r2])).2 = 2 ∧
    (countRefreshCalls
      (runTrace st (expireEvents [r1] ++ [BrokerEvent.refreshDone (some t)] ++
        [BrokerEvent.expire r3])).2 = 1 ∧
     countResendsOf
      (runTrace st (expireEvents [r1] ++ [BrokerEvent.refreshDone (some t)] ++
        [BrokerEvent.expire r3])).2 r3.handle = 1) := by
  obtain ⟨hq, hsub, hsess, hcur, href⟩ := hIdle
  have hepoch1 : ∀ r ∈ r1 :: ([] : List StoredRequest), r.epoch = 0 := by
    intro r hr
    simp only [List.mem_cons, List.not_mem_nil, or_false] at hr
    rw [hr, he1]
  have hnodup1 : ((r1 :: ([] : List StoredRequest)).map (fun r => r.handle)).Nodup := by
    simp
  have hgrant := runTrace_grantPhase st r1 [] t ⟨hq, hsub, hsess, hcur, href⟩ hepoch1 hnodup1
  have hdecline := runTrace_declinePhase st r1 [] ⟨hq, hsub, hsess, hcur, href⟩ hepoch1
  refine ⟨⟨?_, ?_⟩, ?_, ?_, ?_⟩
  · cases token with
    | none => rw [hdecline]; simp [sessionAt, ReissuedToken.unset]
    | some t2 =>
        have hgrant2 := runTrace_grantPhase st r1 [] t2
          ⟨hq, hsub, hsess, hcur, href⟩ hepoch1 hnodup1
        rw [hgrant2]
        simp [sessionAt, ReissuedToken.unset]
  · cases token with
    | none => rw [hdecline]
    | some t2 =>
        rw [runTrace_grantPhase st r1 [] t2 ⟨hq, hsub, hsess, hcur, href⟩ hepoch1 hnodup1]
  · cases token with
    | none =>
        rw [runTrace_append, hdecline]
        simp only [runTrace, brokerStep, sessionAt, he2]
        simp [countRefreshCalls_append, countRefreshCalls_cons,
          countRefreshCalls_origDeliverOutputs, countRefreshCalls, isRefreshCall,
          ReissuedToken.unset, origDeliverOutputs]
    | some t2 =>
        rw [runTrace_append,
          runTrace_grantPhase st r1 [] t2 ⟨hq, hsub, hsess, hcur, href⟩ hepoch1 hnodup1]
        simp only [runTrace, brokerStep, sessionAt, he2]
        simp [countRefreshCalls_append, countRefreshCalls_cons, countRefreshCalls,
          isRefreshCall, resendOutputs, ReissuedToken.unset]
  · rw [runTrace_append, hgrant]
    simp only [runTrace, brokerStep, sessionAt, he3]
    simp [countRefreshCalls_append, countRefreshCalls_cons, countRefreshCalls,
      isRefreshCall, resendOutputs, runStoredRequest, ReissuedToken.unset]
  · rw [runTrace_append, hgrant]
    simp only [runTrace, brokerStep, sessionAt, he3]
    simp [countResendsOf_append, countResendsOf_cons, countResendsOf, resendsOf,
      resendOutputs, runStoredRequest, ReissuedToken.unset, hne13,
      Ne.symm hne13]

/-! ### Concrete witness data -/

/-- Concrete credentials for witness evaluation. -/
def wCreds : Credentials :=
  { username := 3, authToken := { type := TokenType.bearer, value := 4 } }

/-- Concrete prepared request for witness evaluation. -/
def wReq : Request :=
  { url := some 5, method := 1, contentType := 2, messageBody := MessageBody.raw 7,
    credentials := some wCreds }

/-- Concrete idle broker state for witness evaluation. -/
def wState : BrokerState :=
  { userId := 0, directConnect := some { address := 9, credentials := wCreds },
    storedRequests := [], substitutions := [], sessions := [ReissuedToken.unset],
    current := 0, triggerEpoch := 0, refreshing := false, nextHandle := 100 }

/-- Concrete refreshed token for witness evaluation. -/
def wTok : AuthToken := { type := TokenType.bearer, value := 44 }

/-- Concrete in-flight request records for witness evaluation. -/
def wRec1 : StoredRequest :=
  { handle := 1, epoch := 0, success := false, result := 21, request := wReq,
    jsonRpcData := none }

/-- Second concrete record. -/
def wRec2 : StoredRequest :=
  { handle := 2, epoch := 0, success := false, result := 22, request := wReq,
    jsonRpcData := none }

/-- Record of a request dispatched after the first session resolved: it
captured the freshly installed session object (epoch 1). -/
def wRec2e1 : StoredRequest :=
  { handle := 2, epoch := 1, success := false, result := 22, request := wReq,
    jsonRpcData := none }

/-- Third concrete record (same epoch as the first). -/
def wRec3 : StoredRequest :=
  { handle := 3, epoch := 0, success := false, result := 23, request := wReq,
    jsonRpcData := none }

/-- C8 counterexample to the claim as stated: `wRec3`'s session-expired
response arrives after the first Reauthorization Session resolved, yet
the refresh interaction is not invoked again (one `refreshToken` call in
the whole trace, not two) — the request is resent once with the
already-resolved token instead. -/
theorem epoch_reset_claim_counterexample :
    countRefreshCalls
      (runTrace wState [BrokerEvent.expire wRec1, BrokerEvent.refreshDone (some wTok),
        BrokerEvent.expire wRec3]).2 = 1 ∧
    ¬ countRefreshCalls
      (runTrace wState [BrokerEvent.expire wRec1, BrokerEvent.refreshDone (some wTok),
        BrokerEvent.expire wRec3]).2 = 2 ∧
    countResendsOf
      (runTrace wState [BrokerEvent.expire wRec1, BrokerEvent.refreshDone (some wTok),
        BrokerEvent.expire wRec3]).2 wRec3.handle = 1 := by
  decide

/-- Witness for C1 at a concrete input: two expired requests, a granted
token, and both resend completions. -/
theorem singleFlight_refresh_once_witness :
    (Idle wState ∧ 1 ≤ [wRec2].length ∧ (∀ r ∈ wRec1 :: [wRec2], r.epoch = 0) ∧
      ((wRec1 :: [wRec2]).map (fun r => r.handle)).Nodup ∧
      ([((true : Bool), (5 : Nat)), (false, 6)]).length = (wRec1 :: [wRec2]).length) ∧
    (countRefreshCalls
        (runTrace wState (singleFlightTrace wState (wRec1 :: [wRec2]) (some wTok)
          [((true : Bool), (5 : Nat)), (false, 6)])).2 = 1 ∧
      (runTrace wState (expireEvents (wRec1 :: [wRec2]))).1.storedRequests =
        wRec1 :: [wRec2] ∧
      (∀ r ∈ wRec1 :: [wRec2],
        countDeliversTo
          (runTrace wState (singleFlightTrace wState (wRec1 :: [wRec2]) (some wTok)
            [((true : Bool), (5 : Nat)), (false, 6)])).2 r.handle = 1)) :=
  ⟨⟨by decide, by decide, by decide, by decide, by decide⟩,
    singleFlight_refresh_once wState wRec1 [wRec2] (some wTok)
      [((true : Bool), (5 : Nat)), (false, 6)]
      (by decide) (by decide) (by decide) (by decide) (by decide)⟩

/-- Witness for C2 at a concrete input. -/
theorem resend_correlation_witness :
    (Idle wState ∧ (∀ r ∈ wRec1 :: [wRec2], r.handle < wState.nextHandle)) ∧
    ((∀ s h x, Output.deliver s h x ∈
        (runTrace wState (singleFlightTrace wState (wRec1 :: [wRec2]) (some wTok)
          [((true : Bool), (5 : Nat)), (false, 6)])).2 →
      h ∈ (wRec1 :: [wRec2]).map (fun r => r.handle) ∧
      ∀ a b q, Output.resendDispatch a b q ∈
          (runTrace wState (singleFlightTrace wState (wRec1 :: [wRec2]) (some wTok)
            [((true : Bool), (5 : Nat)), (false, 6)])).2 → h ≠ b) ∧
    (∀ k, k ≤ ([((true : Bool), (5 : Nat)), (false, 6)]).length →
      (runTrace wState (expireEvents (wRec1 :: [wRec2]) ++
          [BrokerEvent.refreshDone (some wTok)] ++
          mkResendDones wState.nextHandle
            (([((true : Bool), (5 : Nat)), (false, 6)]).take k))).1.substitutions =
        mkSubs (wState.nextHandle + k) ((wRec1 :: [wRec2]).drop k)) ∧
    (∀ h, countResendsOf
        (runTrace wState (singleFlightTrace wState (wRec1 :: [wRec2]) (some wTok)
          [((true : Bool), (5 : Nat)), (false, 6)])).2 h ≤ 1)) :=
  ⟨⟨by decide, by decide⟩,
    resend_correlation wState wRec1 [wRec2] wTok
      [((true : Bool), (5 : Nat)), (false, 6)]
      (by decide) (by decide) (by decide) (by decide) (by decide)⟩

/-- Witness for C3 at a concrete input: two expired requests and a
declined refresh. -/
theorem decline_fallback_witness :
    (Idle wState ∧ (∀ r ∈ wRec1 :: [wRec2], r.epoch = 0)) ∧
    ((runTrace wState
        (expireEvents (wRec1 :: [wRec2]) ++ [BrokerEvent.refreshDone none])).2 =
      Output.refreshCall ::
        (wRec1 :: [wRec2]).map (fun r => Output.deliver r.success r.handle r.result) ∧
    (∀ a b q, Output.resendDispatch a b q ∉
      (runTrace wState
        (expireEvents (wRec1 :: [wRec2]) ++ [BrokerEvent.refreshDone none])).2) ∧
    (runTrace wState
        (expireEvents (wRec1 :: [wRec2]) ++ [BrokerEvent.refreshDone none])).1.substitutions =
      wState.substitutions) :=
  ⟨⟨by decide, by decide⟩,
    decline_fallback_delivers_originals wState wRec1 [wRec2] (by decide) (by decide)⟩

/-- Witness for C4 at a concrete input. -/
theorem cancel_routing_witness :
    (Idle wState ∧ ((wRec1 :: [wRec2]).map (fun r => r.handle)).Nodup) ∧
    ((∀ r ∈ wRec1 :: [wRec2],
      cancelRequest (runTrace wState (expireEvents (wRec1 :: [wRec2]))).1 r.handle
        = r.handle) ∧
    (∀ i : Fin (wRec1 :: [wRec2]).length,
      cancelRequest
          (runTrace wState
            (expireEvents (wRec1 :: [wRec2]) ++
              [BrokerEvent.refreshDone (some wTok)])).1
          (((wRec1 :: [wRec2]).get i).handle) = wState.nextHandle + i.val ∧
      Output.resendDispatch ((wRec1 :: [wRec2]).get i).handle
          (wState.nextHandle + i.val)
          (resendRequestOf ((wRec1 :: [wRec2]).get i) wTok) ∈
        (runTrace wState
          (expireEvents (wRec1 :: [wRec2]) ++
            [BrokerEvent.refreshDone (some wTok)])).2) ∧
    (∀ r ∈ wRec1 :: [wRec2],
      cancelRequest
          (runTrace wState
            (expireEvents (wRec1 :: [wRec2]) ++ [BrokerEvent.refreshDone (some wTok)] ++
              mkResendDones wState.nextHandle
                [((true : Bool), (5 : Nat)), (false, 6)])).1 r.handle = r.handle)) :=
  ⟨⟨by decide, by decide⟩,
    cancel_routing wState wRec1 [wRec2] wTok [((true : Bool), (5 : Nat)), (false, 6)]
      (by decide) (by decide) (by decide) (by decide)⟩

/-- Witness for the amended C8 at a concrete input. -/
theorem epoch_reset_no_latch_witness :
    (Idle wState ∧ wRec1.epoch = 0 ∧ wRec2e1.epoch = 1 ∧ wRec3.epoch = 0 ∧
      wRec3.handle ≠ wRec1.handle) ∧
    ((sessionAt
        (runTrace wState (expireEvents [wRec1] ++ [BrokerEvent.refreshDone none])).1
        (runTrace wState
          (expireEvents [wRec1] ++ [BrokerEvent.refreshDone none])).1.current =
      ReissuedToken.unset ∧
      (runTrace wState
        (expireEvents [wRec1] ++ [BrokerEvent.refreshDone none])).1.storedRequests = []) ∧
    countRefreshCalls
      (runTrace wState (expireEvents [wRec1] ++ [BrokerEvent.refreshDone none] ++
        [BrokerEvent.expire wRec2e1])).2 = 2 ∧
    (countRefreshCalls
      (runTrace wState (expireEvents [wRec1] ++ [BrokerEvent.refreshDone (some wTok)] ++
        [BrokerEvent.expire wRec3])).2 = 1 ∧
     countResendsOf
      (runTrace wState (expireEvents [wRec1] ++ [BrokerEvent.refreshDone (some wTok)] ++
        [BrokerEvent.expire wRec3])).2 wRec3.handle = 1)) :=
  ⟨⟨by decide, by decide, by decide, by decide, by decide⟩,
    epoch_reset_no_latch wState wRec1 wRec2e1 wRec3 none wTok
      (by decide) (by decide) (by decide) (by decide) (by decide)⟩

/-- C7: for a single (non-batched) response, the failure-path expiry
classification holds exactly when the server-reported error identifier is
`sessionExpired` or `sessionRequired`; the classification reads only the
success flag and the deserialized body — the HTTP status line is not
consulted; a successful response never requests reauthorization; and a
transport-level failure whose body does not deserialize into a
`rest::Result` is never classified as expired, hence never triggers
reauthorization. -/
theorem single_response_expiry_classification :
    (∀ body headers, requestNewSessionSingle false body headers = true ↔
      ∃ r, deserializeResult body = some r ∧
        (r.errorId = ErrorId.sessionExpired ∨ r.errorId = ErrorId.sessionRequired)) ∧
    (∀ (success : Bool) (resp : RawResponse) (s2 : Nat),
      classifyRaw success { resp with statusCode := s2 } = classifyRaw success resp) ∧
    (∀ body headers, requestNewSessionSingle true body headers = false) ∧
    (∀ (success : Bool) (headers : Nat) (raw : String),
      requestNewSessionSingle success (Body.invalid raw) headers = false) := by
  refine ⟨?_, ?_, ?_, ?_⟩
  · intro body headers
    cases body with
    | valid r =>
        rcases r with ⟨eid, es⟩
        cases eid <;>
          simp [requestNewSessionSingle, getError, deserializeResult, isSessionExpiredError]
    | invalid raw =>
        simp [requestNewSessionSingle, getError, deserializeResult]
  · intro success resp s2
    rfl
  · intro body headers
    rfl
  · intro success headers raw
    cases success <;>
      simp [requestNewSessionSingle, getError, deserializeResult]

/-- A broker state with no direct-connect configuration, for the C9
witness. -/
def wStateNoDirect : BrokerState :=
  { userId := 0, directConnect := none, storedRequests := [], substitutions := [],
    sessions := [ReissuedToken.unset], current := 0, triggerEpoch := 0,
    refreshing := false, nextHandle := 100 }

/-- C9: when neither direct-connect addressing nor system-context
authentication is available, `prepareRequest` returns the explicit
default-constructed invalid request rather than throwing; the caller-side
dispatch of `jsonRpcBatchCall` then returns the null handle `0`
synchronously, dispatches nothing to the transport, and leaves the broker
state untouched — so no later retry of that request can ever occur. -/
theorem unpreparable_request_fails_synchronously
    (st : BrokerState) (systemAuth : Option Credentials)
    (method contentType : Nat) (messageBody : MessageBody) (url : Nat)
    (hdc : st.directConnect = none) (hsa : systemAuth = none) :
    prepareRequest st systemAuth method contentType messageBody url = emptyRequest ∧
    (prepareRequest st systemAuth method contentType messageBody url).isValid = false ∧
    (∀ request : Request, request.isValid = false →
      jsonRpcBatchCallSend st request = (st, 0, [])) := by
  subst hsa
  refine ⟨?_, ?_, ?_⟩
  · simp [prepareRequest, hdc]
  · simp [prepareRequest, hdc, emptyRequest, Request.isValid]
  · intro request hreq
    simp [jsonRpcBatchCallSend, hreq]

/-- Witness for C9 at a concrete input. -/
theorem unpreparable_request_witness :
    (wStateNoDirect.directConnect = none) ∧
    (prepareRequest wStateNoDirect none 1 2 (MessageBody.raw 7) 5 = emptyRequest ∧
    (prepareRequest wStateNoDirect none 1 2 (MessageBody.raw 7) 5).isValid = false ∧
    (∀ request : Request, request.isValid = false →
      jsonRpcBatchCallSend wStateNoDirect request = (wStateNoDirect, 0, []))) :=
  ⟨by decide,
    unpreparable_request_fails_synchronously wStateNoDirect none 1 2 (MessageBody.raw 7) 5
      (by decide) rfl⟩

/-- C10: `updateCredentials` on a direct-connect broker instance replaces
the stored direct-connect credentials exactly when the supplied
credentials carry a bearer token; for any non-bearer credentials the
whole broker state — every field — is left unchanged; the operation is
total and returns a state in both cases, never failing or reporting the
rejection. -/
theorem updateCredentials_bearer_only
    (st : BrokerState) (dc : DirectConnect) (credentials : Credentials)
    (hdc : st.directConnect = some dc) :
    (credentials.authToken.isBearerToken = true →
      updateCredentials st credentials =
        { st with directConnect := some { dc with credentials := credentials } }) ∧
    (credentials.authToken.isBearerToken = false →
      updateCredentials st credentials = st) := by
  constructor
  · intro hb
    simp [updateCredentials, hdc, hb]
  · intro hb
    simp [updateCredentials, hb]

/-- Non-bearer credentials for the C10 witness. -/
def wPasswordCreds : Credentials :=
  { username := 8, authToken := { type := TokenType.password, value := 17 } }

/-- Witness for C10 at a concrete input. -/
theorem updateCredentials_bearer_only_witness :
    (wState.directConnect = some { address := 9, credentials := wCreds }) ∧
    ((wPasswordCreds.authToken.isBearerToken = true →
      updateCredentials wState wPasswordCreds =
        { wState with
            directConnect := some { address := 9, credentials := wPasswordCreds } }) ∧
    (wPasswordCreds.authToken.isBearerToken = false →
      updateCredentials wState wPasswordCreds = wState)) :=
  ⟨by decide,
    updateCredentials_bearer_only wState { address := 9, credentials := wCreds }
      wPasswordCreds (by decide)⟩

/-- Default response used with `List.getD` in positional statements. -/
def nullResponse : JsonRpcResponse :=
  { id := RpcId.null, result := none, error := none }

theorem getD_map_of_lt {α β : Type} (f : α → β) (l : List α) :
    ∀ (j : Nat) (d : α) (d2 : β), j < l.length →
    (l.map f).getD j d2 = f (l.getD j d) := by
  induction l with
  | nil => intro j d d2 h; simp at h
  | cons a rest ih =>
      intro j d d2 h
      cases j with
      | zero => rfl
      | succ n =>
          simp only [List.map_cons, List.getD_cons_succ]
          exact ih n d d2 (Nat.lt_of_succ_lt_succ h)

/-- C6: if the resent reduced batch fails entirely (the result is a
`rest::Result` error, not a response array), the merge still succeeds
(the batch is never surfaced as a hard failure): every original item that
classified as session-expired is replaced by a synthesized
application-level error that keeps the item id, clears the result and
carries the failure's message and details; every non-expired item is left
unchanged; and `fixedCallback` still invokes the issuer callback with
`success = true` under the original handle, carrying the merged array. -/
theorem batch_resend_total_failure
    (originalResponse : List JsonRpcResponse) (e : RestResult)
    (originalHandle : Handle) (success : Bool) :
    (mergeJsonRpcResults originalResponse (Except.error e)).isSome = true ∧
    ((mergeJsonRpcResults originalResponse (Except.error e)).getD []).length =
      originalResponse.length ∧
    (∀ j, j < originalResponse.length →
      (isSessionExpiredResponse (originalResponse.getD j nullResponse) = true →
        ((mergeJsonRpcResults originalResponse (Except.error e)).getD []).getD j
            nullResponse =
          makeError (originalResponse.getD j nullResponse).id applicationError
            e.errorString (some (ErrorData.restResult e))) ∧
      (isSessionExpiredResponse (originalResponse.getD j nullResponse) = false →
        ((mergeJsonRpcResults originalResponse (Except.error e)).getD []).getD j
            nullResponse =
          originalResponse.getD j nullResponse)) ∧
    fixedCallbackJsonRpcDelivery originalResponse originalHandle success
        (Except.error e) =
      (true, originalHandle,
        some ((mergeJsonRpcResults originalResponse (Except.error e)).getD [])) := by
  have hm : mergeJsonRpcResults originalResponse (Except.error e) =
      some (originalResponse.map (fun response =>
        if isSessionExpiredResponse response then
          makeError response.id applicationError e.errorString
            (some (ErrorData.restResult e))
        else response)) := rfl
  refine ⟨by rw [hm]; rfl, by rw [hm]; simp, ?_, by simp [fixedCallbackJsonRpcDelivery, hm]⟩
  intro j hj
  rw [hm]
  simp only [Option.getD_some]
  rw [getD_map_of_lt _ originalResponse j nullResponse nullResponse hj]
  constructor
  · intro hexp
    rw [hexp]
    simp
  · intro hexp
    rw [hexp]
    simp

/-- A session-expired error envelope for witness batches. -/
def wExpRest : RestResult := { errorId := ErrorId.sessionExpired, errorString := "x" }

/-- A JSON-RPC error whose data deserializes into `wExpRest`. -/
def wExpRpcError : RpcError :=
  { code := 7, message := "m", data := some (ErrorData.restResult wExpRest) }

/-- A batch item that classified as session-expired. -/
def wExpiredItem : JsonRpcResponse :=
  { id := RpcId.num 1, result := none, error := some wExpRpcError }

/-- A batch item that succeeded. -/
def wOkItem : JsonRpcResponse := { id := RpcId.num 2, result := some 10, error := none }

/-- A two-item original batch response: item 1 expired, item 2 fine. -/
def wOrigBatch : List JsonRpcResponse := [wExpiredItem, wOkItem]

/-- The transport failure reported for the failed resend batch. -/
def wFailResult : RestResult := { errorId := ErrorId.other 3, errorString := "boom" }

/-- Witness for C6 at a concrete input: a two-item batch with one expired
item and a failed resend. -/
theorem batch_resend_total_failure_witness :
    (0 : Nat) < 2 ∧
    ((mergeJsonRpcResults wOrigBatch (Except.error wFailResult)).isSome = true ∧
     ((mergeJsonRpcResults wOrigBatch (Except.error wFailResult)).getD []).length =
       wOrigBatch.length ∧
     (∀ j, j < wOrigBatch.length →
       (isSessionExpiredResponse (wOrigBatch.getD j nullResponse) = true →
         ((mergeJsonRpcResults wOrigBatch (Except.error wFailResult)).getD []).getD j
             nullResponse =
           makeError (wOrigBatch.getD j nullResponse).id applicationError
             wFailResult.errorString (some (ErrorData.restResult wFailResult))) ∧
       (isSessionExpiredResponse (wOrigBatch.getD j nullResponse) = false →
         ((mergeJsonRpcResults wOrigBatch (Except.error wFailResult)).getD []).getD j
             nullResponse =
           wOrigBatch.getD j nullResponse)) ∧
     fixedCallbackJsonRpcDelivery wOrigBatch 42 false (Except.error wFailResult) =
       (true, 42,
         some ((mergeJsonRpcResults wOrigBatch (Except.error wFailResult)).getD []))) :=
  ⟨by decide, batch_resend_total_failure wOrigBatch wFailResult 42 false⟩

theorem mem_expiredIdsOf (arr : List JsonRpcResponse) (i : RpcId) :
    i ∈ expiredIdsOf arr ↔
      i ≠ RpcId.null ∧ ∃ resp ∈ arr, isSessionExpiredResponse resp = true ∧
        resp.id = i := by
  induction arr with
  | nil => simp [expiredIdsOf]
  | cons resp rest ih =>
      simp only [expiredIdsOf]
      cases hexp : isSessionExpiredResponse resp with
      | false =>
          simp only [Bool.false_eq_true, if_false]
          rw [ih]
          constructor
          · rintro ⟨hnn, r, hr, hre, hri⟩
            exact ⟨hnn, r, List.mem_cons_of_mem _ hr, hre, hri⟩
          · rintro ⟨hnn, r, hr, hre, hri⟩
            rcases List.mem_cons.mp hr with rfl | hr2
            · rw [hexp] at hre
              exact absurd hre (by simp)
            · exact ⟨hnn, r, hr2, hre, hri⟩
      | true =>
          simp only [if_true]
          cases hid : resp.id with
          | null =>
              rw [ih]
              constructor
              · rintro ⟨hnn, r, hr, hre, hri⟩
                exact ⟨hnn, r, List.mem_cons_of_mem _ hr, hre, hri⟩
              · rintro ⟨hnn, r, hr, hre, hri⟩
                rcases List.mem_cons.mp hr with rfl | hr2
                · rw [hid] at hri
                  exact absurd hri.symm hnn
                · exact ⟨hnn, r, hr2, hre, hri⟩
          | num n =>
              simp only [List.mem_cons]
              rw [ih]
              constructor
              · rintro (rfl | ⟨hnn, r, hr, hre, hri⟩)
                · exact ⟨by simp, resp, Or.inl rfl, hexp, hid⟩
                · exact ⟨hnn, r, Or.inr hr, hre, hri⟩
              · rintro ⟨hnn, r, hr, hre, hri⟩
                rcases hr with rfl | hr2
                · left
                  rw [← hri, hid]
                · right
                  exact ⟨hnn, r, hr2, hre, hri⟩
          | str t =>
              simp only [List.mem_cons]
              rw [ih]
              constructor
              · rintro (rfl | ⟨hnn, r, hr, hre, hri⟩)
                · exact ⟨by simp, resp, Or.inl rfl, hexp, hid⟩
                · exact ⟨hnn, r, Or.inr hr, hre, hri⟩
              · rintro ⟨hnn, r, hr, hre, hri⟩
                rcases hr with rfl | hr2
                · left
                  rw [← hri, hid]
                · right
                  exact ⟨hnn, r, hr2, hre, hri⟩

theorem mem_reducedJsonRpcRequests (requestData : List JsonRpcRequest)
    (ids : List RpcId) (q : JsonRpcRequest) :
    q ∈ reducedJsonRpcRequests requestData ids ↔ q ∈ requestData ∧ q.id ∈ ids := by
  simp [reducedJsonRpcRequests, List.mem_filter]

theorem reducedJsonRpcRequests_sublist (requestData : List JsonRpcRequest)
    (ids : List RpcId) :
    (reducedJsonRpcRequests requestData ids).Sublist requestData :=
  List.filter_sublist _

theorem lookupFirstById_null (arr : List JsonRpcResponse) :
    lookupFirstById arr RpcId.null = none := by
  induction arr with
  | nil => rfl
  | cons r rest ih =>
      rw [lookupFirstById, if_neg, ih]
      rintro ⟨h1, h2⟩
      exact h1 h2

theorem lookupFirstById_eq_some (arr : List JsonRpcResponse) (i : RpcId)
    (fresh : JsonRpcResponse) :
    lookupFirstById arr i = some fresh → fresh ∈ arr ∧ fresh.id = i := by
  induction arr with
  | nil => intro h; simp [lookupFirstById] at h
  | cons r rest ih =>
      intro h
      rw [lookupFirstById] at h
      split at h
      · rename_i hcond
        injection h with h2
        subst h2
        exact ⟨by simp, hcond.2⟩
      · have := ih h
        exact ⟨List.mem_cons_of_mem _ this.1, this.2⟩

theorem lookupFirstById_isSome (arr : List JsonRpcResponse) (i : RpcId)
    (hnn : i ≠ RpcId.null) :
    (∃ fresh ∈ arr, fresh.id = i) →
    ∃ fresh2, lookupFirstById arr i = some fresh2 := by
  induction arr with
  | nil => rintro ⟨fresh, hmem, _⟩; simp at hmem
  | cons r rest ih =>
      rintro ⟨fresh, hmem, hfi⟩
      rw [lookupFirstById]
      by_cases hcond : r.id ≠ RpcId.null ∧ r.id = i
      · exact ⟨r, if_pos hcond⟩
      · rw [if_neg hcond]
        rcases List.mem_cons.mp hmem with rfl | hm2
        · exact absurd ⟨hfi ▸ hnn, hfi⟩ hcond
        · exact ih ⟨fresh, hm2, hfi⟩

/-- C5 (amended): for a batch with a proper, non-empty expired subset:
the expired-id set is exactly the non-null ids of the session-expired
items; exactly one reduced batch is resent — it is the message body of
the single resend dispatch — containing exactly the original requests
whose ids are in the expired set, in their original order; and the merge
replaces each original item whose non-null id matches (by exact type and
value) the id of an item of the resend's response array (a null
identifier is never matched), leaving every other original item
unchanged. -/
theorem batch_partial_resend
    (st : BrokerState) (rec : StoredRequest) (t : AuthToken)
    (requestData : List JsonRpcRequest)
    (responseArray resendArray : List JsonRpcResponse)
    (hIdle : Idle st) (hepoch : rec.epoch = 0)
    (hjson : rec.jsonRpcData = some (requestData,
      (extractJsonRpcExpired (Except.ok (JsonRpcResult.array responseArray))).1))
    (hne : (extractJsonRpcExpired (Except.ok (JsonRpcResult.array responseArray))).1 ≠ [])
    (hproper : ∃ resp ∈ responseArray, isSessionExpiredResponse resp = false) :
    (∀ i, i ∈ (extractJsonRpcExpired
        (Except.ok (JsonRpcResult.array responseArray))).1 ↔
      (i ≠ RpcId.null ∧ ∃ resp ∈ responseArray,
        isSessionExpiredResponse resp = true ∧ resp.id = i)) ∧
    (∀ q, q ∈ reducedJsonRpcRequests requestData
        (extractJsonRpcExpired (Except.ok (JsonRpcResult.array responseArray))).1 ↔
      (q ∈ requestData ∧ q.id ∈ (extractJsonRpcExpired
        (Except.ok (JsonRpcResult.array responseArray))).1)) ∧
    (reducedJsonRpcRequests requestData
      (extractJsonRpcExpired (Except.ok (JsonRpcResult.array responseArray))).1).Sublist
      requestData ∧
    (runTrace st (expireEvents [rec] ++ [BrokerEvent.refreshDone (some t)])).2 =
      [Output.refreshCall,
        Output.resendDispatch rec.handle st.nextHandle (resendRequestOf rec t)] ∧
    (resendRequestOf rec t).messageBody =
      MessageBody.jsonRpc (reducedJsonRpcRequests requestData
        (extractJsonRpcExpired (Except.ok (JsonRpcResult.array responseArray))).1) ∧
    (∃ merged, mergeJsonRpcResults responseArray
        (Except.ok (JsonRpcResult.array resendArray)) = some merged ∧
      merged.length = responseArray.length ∧
      ∀ j, j < responseArray.length →
        (((responseArray.getD j nullResponse).id ≠ RpcId.null ∧
            ∃ fresh ∈ resendArray,
              fresh.id = (responseArray.getD j nullResponse).id) →
          merged.getD j nullResponse ∈ resendArray ∧
          (merged.getD j nullResponse).id = (responseArray.getD j nullResponse).id) ∧
        (¬ ((responseArray.getD j nullResponse).id ≠ RpcId.null ∧
            ∃ fresh ∈ resendArray,
              fresh.id = (responseArray.getD j nullResponse).id) →
          merged.getD j nullResponse = responseArray.getD j nullResponse)) := by
  obtain ⟨hq, hsub, hsess, hcur, href⟩ := hIdle
  have hepoch1 : ∀ r ∈ rec :: ([] : List StoredRequest), r.epoch = 0 := by
    intro r hr
    simp only [List.mem_cons, List.not_mem_nil, or_false] at hr
    rw [hr, hepoch]
  have hnodup1 : ((rec :: ([] : List StoredRequest)).map (fun r => r.handle)).Nodup := by
    simp
  have hgrant := runTrace_grantPhase st rec [] t
    ⟨hq, hsub, hsess, hcur, href⟩ hepoch1 hnodup1
  refine ⟨fun i => mem_expiredIdsOf responseArray i,
    fun q => mem_reducedJsonRpcRequests requestData _ q,
    reducedJsonRpcRequests_sublist requestData _, ?_, ?_, ?_⟩
  · rw [hgrant]
    rfl
  · simp [resendRequestOf, hjson]
  · refine ⟨responseArray.map (fun response =>
      match lookupFirstById resendArray response.id with
      | some fresh => fresh
      | none => response), rfl, by simp, ?_⟩
    intro j hj
    have hget := getD_map_of_lt (fun response =>
      match lookupFirstById resendArray response.id with
      | some fresh => fresh
      | none => response) responseArray j nullResponse nullResponse hj
    constructor
    · rintro ⟨hnn, fresh, hmem, hfi⟩
      obtain ⟨fresh2, hf2⟩ :=
        lookupFirstById_isSome resendArray (responseArray.getD j nullResponse).id hnn
          ⟨fresh, hmem, hfi⟩
      have hprops := lookupFirstById_eq_some resendArray _ fresh2 hf2
      rw [hget]
      show (match lookupFirstById resendArray (responseArray.getD j nullResponse).id with
          | some fresh => fresh
          | none => responseArray.getD j nullResponse) ∈ resendArray ∧
        (match lookupFirstById resendArray (responseArray.getD j nullResponse).id with
          | some fresh => fresh
          | none => responseArray.getD j nullResponse).id =
          (responseArray.getD j nullResponse).id
      rw [hf2]
      exact hprops
    · intro hnot
      rw [hget]
      show (match lookupFirstById resendArray (responseArray.getD j nullResponse).id with
          | some fresh => fresh
          | none => responseArray.getD j nullResponse) =
        responseArray.getD j nullResponse
      cases hcase : lookupFirstById resendArray (responseArray.getD j nullResponse).id with
      | none => rfl
      | some fresh2 =>
          have hprops := lookupFirstById_eq_some resendArray _ fresh2 hcase
          by_cases hnn : (responseArray.getD j nullResponse).id = RpcId.null
          · rw [hnn, lookupFirstById_null] at hcase
            exact absurd hcase (by simp)
          · exact absurd ⟨hnn, fresh2, hprops.1, hprops.2⟩ hnot

/-- An original batch item with a null id that did not expire. -/
def wNullItem : JsonRpcResponse := { id := RpcId.null, result := some 11, error := none }

/-- A resend response for item id 1. -/
def wFresh1 : JsonRpcResponse := { id := RpcId.num 1, result := some 20, error := none }

/-- A null-id response inside the resend's response array. -/
def wFreshNull : JsonRpcResponse :=
  { id := RpcId.null, result := none,
    error := some { code := 8, message := "n", data := none } }

/-- C5 counterexample to the claim as stated: the batch
`[wExpiredItem (id 1, expired), wNullItem (id null, ok)]` has the proper
non-empty expired subset `{1}`; the resend's response array contains an
item whose id matches `wNullItem`'s id by exact type and value
(null = null), yet the merge leaves `wNullItem` unchanged instead of
replacing it — a null identifier is never matched. -/
theorem batch_partial_resend_claim_counterexample :
    expiredIdsOf [wExpiredItem, wNullItem] = [RpcId.num 1] ∧
    isSessionExpiredResponse wNullItem = false ∧
    wNullItem.id = wFreshNull.id ∧
    wFreshNull ∈ [wFresh1, wFreshNull] ∧
    mergeJsonRpcResults [wExpiredItem, wNullItem]
      (Except.ok (JsonRpcResult.array [wFresh1, wFreshNull])) =
      some [wFresh1, wNullItem] ∧
    wNullItem ≠ wFreshNull := by
  decide

/-- First JSON-RPC request of the witness batch (id 1). -/
def wJsonReq1 : JsonRpcRequest := { method := "a", id := RpcId.num 1, params := 0 }

/-- Second JSON-RPC request of the witness batch (id 2). -/
def wJsonReq2 : JsonRpcRequest := { method := "b", id := RpcId.num 2, params := 0 }

/-- Stored record of the witness batch call, carrying the original
request array and the extracted expired-id set. -/
def wRecJson : StoredRequest :=
  { handle := 4, epoch := 0, success := false, result := 0, request := wReq,
    jsonRpcData := some ([wJsonReq1, wJsonReq2],
      (extractJsonRpcExpired (Except.ok (JsonRpcResult.array wOrigBatch))).1) }

/-- Witness for the amended C5 at a concrete input: batch ids `{1, 2}`,
expired subset `{1}`, resend response array containing id 1 only. -/
theorem batch_partial_resend_witness :
    (Idle wState ∧ wRecJson.epoch = 0 ∧
      wRecJson.jsonRpcData = some ([wJsonReq1, wJsonReq2],
        (extractJsonRpcExpired (Except.ok (JsonRpcResult.array wOrigBatch))).1) ∧
      (extractJsonRpcExpired (Except.ok (JsonRpcResult.array wOrigBatch))).1 ≠ [] ∧
      (∃ resp ∈ wOrigBatch, isSessionExpiredResponse resp = false)) ∧
    ((∀ i, i ∈ (extractJsonRpcExpired
        (Except.ok (JsonRpcResult.array wOrigBatch))).1 ↔
      (i ≠ RpcId.null ∧ ∃ resp ∈ wOrigBatch,
        isSessionExpiredResponse resp = true ∧ resp.id = i)) ∧
    (∀ q, q ∈ reducedJsonRpcRequests [wJsonReq1, wJsonReq2]
        (extractJsonRpcExpired (Except.ok (JsonRpcResult.array wOrigBatch))).1 ↔
      (q ∈ [wJsonReq1, wJsonReq2] ∧ q.id ∈ (extractJsonRpcExpired
        (Except.ok (JsonRpcResult.array wOrigBatch))).1)) ∧
    (reducedJsonRpcRequests [wJsonReq1, wJsonReq2]
      (extractJsonRpcExpired (Except.ok (JsonRpcResult.array wOrigBatch))).1).Sublist
      [wJsonReq1, wJsonReq2] ∧
    (runTrace wState (expireEvents [wRecJson] ++
        [BrokerEvent.refreshDone (some wTok)])).2 =
      [Output.refreshCall,
        Output.resendDispatch wRecJson.handle wState.nextHandle
          (resendRequestOf wRecJson wTok)] ∧
    (resendRequestOf wRecJson wTok).messageBody =
      MessageBody.jsonRpc (reducedJsonRpcRequests [wJsonReq1, wJsonReq2]
        (extractJsonRpcExpired (Except.ok (JsonRpcResult.array wOrigBatch))).1) ∧
    (∃ merged, mergeJsonRpcResults wOrigBatch
        (Except.ok (JsonRpcResult.array [wFresh1])) = some merged ∧
      merged.length = wOrigBatch.length ∧
      ∀ j, j < wOrigBatch.length →
        (((wOrigBatch.getD j nullResponse).id ≠ RpcId.null ∧
            ∃ fresh ∈ [wFresh1],
              fresh.id = (wOrigBatch.getD j nullResponse).id) →
          merged.getD j nullResponse ∈ [wFresh1] ∧
          (merged.getD j nullResponse).id = (wOrigBatch.getD j nullResponse).id) ∧
        (¬ ((wOrigBatch.getD j nullResponse).id ≠ RpcId.null ∧
            ∃ fresh ∈ [wFresh1],
              fresh.id = (wOrigBatch.getD j nullResponse).id) →
          merged.getD j nullResponse = wOrigBatch.getD j nullResponse))) :=
  ⟨⟨by decide, by decide, by decide, by decide, by decide⟩,
    batch_partial_resend wState wRecJson wTok [wJsonReq1, wJsonReq2] wOrigBatch
      [wFresh1] (by decide) (by decide) (by decide) (by decide) (by decide)⟩

end ServerRest
